import Mathlib

/-!
# surge: range-support probe and download director

A shallow embedding of `internal/downloader/manager.go` (the range-support
probe `checkRangeSupport` with its process-wide cache, and the two directors
`Download` and `TUIDownload`) together with the telemetry messages exercised by
`internal/messages/messages_test.go`.

Conventions of the embedding:

* a Go `error` is `Option GoError` (`none` is `nil`);
* the process-wide `rangeSupportCache` and the list of requests handed to
  `probeClient.Do` are threaded explicitly as a `World`;
* the origin server is an arbitrary function from the requests seen so far and
  the current request to either a transport error or a response; deadlines and
  cancellation of the `context.Context` show up as transport errors;
* the standard library (`net/url.Parse`, `http.NewRequestWithContext`) and the
  two strategy types of the package are parameters;
* two calls of the probe in flight at once are a schedule of turns over the
  stretches between a call's accesses to the cache (`ProbeTask`, `Race`);
* an `interface{}` holding a telemetry message is its dynamic type name and its
  field values (`Iface`).
-/

namespace Surge

/-! ## Go values used by the probe -/

/-- A non-nil Go `error`, identified by its message. -/
abbrev GoError := String

/-- The part of `net/url.URL` the probe reads. -/
structure URL where
  Scheme : String
  Host : String
  Path : String
  deriving DecidableEq, Repr

/-- An `http.Header`, one value per key, most recently set first. -/
abbrev Header := List (String × String)

/-- `Header.Get`: the value stored under `key`, or the empty string. -/
def Header.Get (h : Header) (key : String) : String :=
  (h.lookup key).getD ""

/-- `Header.Set`: replaces whatever was stored under `key`. -/
def Header.Set (h : Header) (key value : String) : Header :=
  (key, value) :: h.filter (fun p => p.1 != key)

/-- An outgoing `http.Request`. -/
structure Request where
  Method : String
  URL : String
  Header : Header
  deriving DecidableEq, Repr

/-- The part of `http.Response` the package reads. `ContentLength` is `-1`
when the length is unknown, as in `net/http`. -/
structure Response where
  StatusCode : Int
  Header : Header
  ContentLength : Int
  deriving DecidableEq, Repr

/-- `http.MethodHead`. -/
def MethodHead : String := "HEAD"

/-- `http.MethodGet`. -/
def MethodGet : String := "GET"

/-- `http.StatusPartialContent`. -/
def StatusPartialContent : Int := 206

/-- The browser-like User-Agent sent with both probe requests. -/
def ua : String :=
  "Mozilla/5.0 (Windows NT 10.0; Win64; x64) " ++
  "AppleWebKit/537.36 (KHTML, like Gecko) " ++
  "Chrome/120.0.0.0 Safari/537.36"

/-! ## `strings.ToLower` and `strings.Contains` -/

/-- `strings.ToLower`. Only the letters `A`..`Z` are folded; no other code
point lower-cases to one of `b y t e s`, so on the test `Contains … "bytes"`
this agrees with Go's Unicode folding. -/
def ToLower (s : String) : String :=
  ⟨s.data.map Char.toLower⟩

/-- Substring search on character lists. -/
def containsChars : List Char → List Char → Bool
  | [], sub => sub.isEmpty
  | c :: cs, sub => sub.isPrefixOf (c :: cs) || containsChars cs sub

/-- `strings.Contains`. -/
def Contains (s substr : String) : Bool :=
  containsChars s.data substr.data

/-- The reading of "contains `needle` as a case-insensitive substring": some
contiguous stretch of `v` equals `needle` once its letters are lower-cased. -/
def ContainsFold (v needle : String) : Prop :=
  ∃ pre mid post : List Char, v.data = pre ++ mid ++ post ∧ mid.map Char.toLower = needle.data

/-! ## The range-support cache (`sync.Map` of host key to verdict) -/

/-- The contents of `rangeSupportCache`: at most one verdict per key. -/
abbrev SyncMap := List (String × Bool)

/-- `sync.Map.Load`: `some v` when a verdict is stored, `none` when `ok` is false. -/
def SyncMap.Load (m : SyncMap) (key : String) : Option Bool :=
  m.lookup key

/-- `sync.Map.Store`: sets the verdict of `key`, replacing any earlier one. -/
def SyncMap.Store (m : SyncMap) (key : String) (value : Bool) : SyncMap :=
  (key, value) :: m.filter (fun p => p.1 != key)

/-! ## The world the probe runs in -/

/-- The standard-library calls the probe depends on. `Parse` is
`net/url.Parse`; `newRequestError` tells whether `http.NewRequestWithContext`
refuses a method and URL. -/
structure Env where
  Parse : String → Except GoError URL
  newRequestError : String → String → Option GoError

/-- The origin as seen through `probeClient`: given the requests already sent
and the current one, a transport failure (which includes a missed deadline) or
a response. -/
abbrev Server := List Request → Request → Except GoError Response

/-- Process state: the cache and the recording of every request handed to
`probeClient.Do`, oldest first. -/
structure World where
  rangeSupportCache : SyncMap
  sent : List Request
  deriving DecidableEq, Repr

/-- `http.NewRequestWithContext(ctx, method, url, nil)`: a request with the
given method and URL and no headers, unless the library refuses. -/
def NewRequestWithContext (env : Env) (method url : String) : Except GoError Request :=
  match env.newRequestError method url with
  | some err => .error err
  | none => .ok { Method := method, URL := url, Header := [] }

/-- `req.Header.Set(key, value)`. -/
def Request.SetHeader (req : Request) (key value : String) : Request :=
  { req with Header := req.Header.Set key value }

/-- `probeClient.Do(req)`: records the request and asks the origin. -/
def Do (srv : Server) (req : Request) (w : World) : Except GoError Response × World :=
  (srv w.sent req, { w with sent := w.sent ++ [req] })

/-- `rangeSupportCache.Store(hostKey, v)`. -/
def World.Store (w : World) (hostKey : String) (v : Bool) : World :=
  { w with rangeSupportCache := w.rangeSupportCache.Store hostKey v }

/-! ## `checkRangeSupport` -/

/-- The second half of `checkRangeSupport` (manager.go lines 94-121), reached
when the HEAD request was not built, failed, or was not decisive: a GET with
`Range: bytes=0-0`. -/
def checkRangeSupportGet (env : Env) (srv : Server) (rawurl hostKey : String) (w : World) :
    (Bool × Option GoError) × World :=
  match NewRequestWithContext env MethodGet rawurl with
  | .error err => ((false, some err), w)
  | .ok getReq =>
    let getReq := getReq.SetHeader "Range" "bytes=0-0"
    let getReq := getReq.SetHeader "User-Agent" ua
    match Do srv getReq w with
    | (.error err, w) => ((false, some err), w)
    | (.ok resp, w) =>
      if resp.StatusCode = StatusPartialContent then
        ((true, none), w.Store hostKey true)
      else if Contains (ToLower (resp.Header.Get "Accept-Ranges")) "bytes"
          || resp.Header.Get "Content-Range" != "" then
        ((true, none), w.Store hostKey true)
      else
        ((false, none), w.Store hostKey false)

/-- `checkRangeSupport(ctx, rawurl)`: the verdict, the error, and the world
after the call. -/
def checkRangeSupport (env : Env) (srv : Server) (rawurl : String) (w : World) :
    (Bool × Option GoError) × World :=
  match env.Parse rawurl with
  | .error err => ((false, some err), w)
  | .ok u =>
    let hostKey := u.Host
    match w.rangeSupportCache.Load hostKey with
    | some v => ((v, none), w)
    | none =>
      match NewRequestWithContext env MethodHead rawurl with
      | .ok headReq =>
        let headReq := headReq.SetHeader "User-Agent" ua
        match Do srv headReq w with
        | (.ok resp, w) =>
          if Contains (ToLower (resp.Header.Get "Accept-Ranges")) "bytes" then
            ((true, none), w.Store hostKey true)
          else if resp.Header.Get "Content-Range" != "" then
            ((true, none), w.Store hostKey true)
          else
            checkRangeSupportGet env srv rawurl hostKey w
        | (.error _, w) => checkRangeSupportGet env srv rawurl hostKey w
      | .error _ => checkRangeSupportGet env srv rawurl hostKey w

/-! ## Vocabulary for stating what the probe saw -/

/-- The HEAD request the probe sends. -/
def probeHeadRequest (rawurl : String) : Request :=
  { Method := MethodHead, URL := rawurl, Header := [("User-Agent", ua)] }

/-- The GET request the probe sends. -/
def probeGetRequest (rawurl : String) : Request :=
  { Method := MethodGet, URL := rawurl, Header := [("User-Agent", ua), ("Range", "bytes=0-0")] }

/-- The response to the HEAD request, when that request can be built and the
origin answers it. -/
def headResponse (env : Env) (srv : Server) (rawurl : String) (w : World) : Option Response :=
  match env.newRequestError MethodHead rawurl with
  | some _ => none
  | none =>
    match srv w.sent (probeHeadRequest rawurl) with
    | .ok resp => some resp
    | .error _ => none

/-- The world once the HEAD stage is over: the HEAD request is on record
exactly when it could be built. -/
def afterHead (env : Env) (rawurl : String) (w : World) : World :=
  match env.newRequestError MethodHead rawurl with
  | some _ => w
  | none => { w with sent := w.sent ++ [probeHeadRequest rawurl] }

/-- The outcome of the GET request, sent after the HEAD stage, when it can be
built: a transport error or a response. -/
def getOutcome (env : Env) (srv : Server) (rawurl : String) (w : World) :
    Except GoError Response :=
  match env.newRequestError MethodGet rawurl with
  | some err => .error err
  | none => srv (afterHead env rawurl w).sent (probeGetRequest rawurl)

/-- A response advertises range support: its `Accept-Ranges` value contains
`bytes` in any letter case, or it carries a non-empty `Content-Range`. -/
def advertisesRange (resp : Response) : Prop :=
  ContainsFold (resp.Header.Get "Accept-Ranges") "bytes" ∨ resp.Header.Get "Content-Range" ≠ ""

/-! ## The two strategies and the directors -/

/-- What `manager.go` uses of `ConcurrentDownloader`: the constructor, the
three setters and `Download`. `CD` is the downloader, `R` the result of a
download (a Go `error`). -/
structure ConcurrentAPI (CD Ctx Chan PS R : Type) where
  New : CD
  SetProgressChan : CD → Chan → CD
  SetID : CD → Int → CD
  SetProgressState : CD → PS → CD
  Download : CD → Ctx → String → String → Bool → String → String → R

/-- What `manager.go` uses of `SingleDownloader`; its `Download` takes no
digests. -/
structure SingleAPI (SD Ctx Chan PS R : Type) where
  New : SD
  SetProgressChan : SD → Chan → SD
  SetID : SD → Int → SD
  SetProgressState : SD → PS → SD
  Download : SD → Ctx → String → String → Bool → R

section Directors

variable {CD SD Ctx Chan PS R : Type}

/-- `Download(ctx, rawurl, outPath, verbose, md5sum, sha256sum, progressCh, id)`:
the result of the chosen strategy and the world after the probe. -/
def Download (env : Env) (srv : Server) (conc : ConcurrentAPI CD Ctx Chan PS R)
    (single : SingleAPI SD Ctx Chan PS R) (ctx : Ctx) (rawurl outPath : String)
    (verbose : Bool) (md5sum sha256sum : String) (progressCh : Chan) (id : Int) (w : World) :
    R × World :=
  let probe := checkRangeSupport env srv rawurl w
  let supportsRange := probe.1.1
  if supportsRange then
    let d := conc.New
    let d := conc.SetProgressChan d progressCh
    let d := conc.SetID d id
    (conc.Download d ctx rawurl outPath verbose md5sum sha256sum, probe.2)
  else
    let d := single.New
    let d := single.SetProgressChan d progressCh
    let d := single.SetID d id
    (single.Download d ctx rawurl outPath verbose, probe.2)

/-- `TUIDownload(…, id, state)`; a nil `state` is `none`. -/
def TUIDownload (env : Env) (srv : Server) (conc : ConcurrentAPI CD Ctx Chan PS R)
    (single : SingleAPI SD Ctx Chan PS R) (ctx : Ctx) (rawurl outPath : String)
    (verbose : Bool) (md5sum sha256sum : String) (progressCh : Chan) (id : Int)
    (state : Option PS) (w : World) : R × World :=
  let probe := checkRangeSupport env srv rawurl w
  let supportsRange := probe.1.1
  if supportsRange then
    let d := conc.New
    let d := conc.SetProgressChan d progressCh
    let d := conc.SetID d id
    let d := match state with
      | some st => conc.SetProgressState d st
      | none => d
    (conc.Download d ctx rawurl outPath verbose md5sum sha256sum, probe.2)
  else
    let d := single.New
    let d := single.SetProgressChan d progressCh
    let d := single.SetID d id
    let d := match state with
      | some st => single.SetProgressState d st
      | none => d
    (single.Download d ctx rawurl outPath verbose, probe.2)

end Directors

/-! ## A recording instance of the strategies -/

/-- The two strategies. -/
inductive Strategy where
  | concurrent
  | single
  deriving DecidableEq, Repr

/-- What the setters have put into a downloader. -/
structure Wiring (Chan PS : Type) where
  progressCh : Option Chan
  id : Option Int
  state : Option PS
  deriving DecidableEq, Repr

/-- A call of a strategy's `Download`, with the downloader it was made on and
the arguments it was given. -/
inductive Call (Ctx Chan PS : Type) where
  | concurrent (d : Wiring Chan PS) (ctx : Ctx) (rawurl outPath : String) (verbose : Bool)
      (md5sum sha256sum : String)
  | single (d : Wiring Chan PS) (ctx : Ctx) (rawurl outPath : String) (verbose : Bool)
  deriving DecidableEq, Repr

/-- The strategy a call went to. -/
def Call.strategy {Ctx Chan PS : Type} : Call Ctx Chan PS → Strategy
  | .concurrent .. => .concurrent
  | .single .. => .single

/-- The expected digests `(md5sum, sha256sum)` a call handed over, if any. -/
def Call.digests {Ctx Chan PS : Type} : Call Ctx Chan PS → Option (String × String)
  | .concurrent _ _ _ _ _ md5sum sha256sum => some (md5sum, sha256sum)
  | .single .. => none

/-- A concurrent downloader that only records how it is used. -/
def recordConcurrent (Ctx Chan PS : Type) :
    ConcurrentAPI (Wiring Chan PS) Ctx Chan PS (Call Ctx Chan PS) where
  New := { progressCh := none, id := none, state := none }
  SetProgressChan d ch := { d with progressCh := some ch }
  SetID d id := { d with id := some id }
  SetProgressState d st := { d with state := some st }
  Download d ctx rawurl outPath verbose md5sum sha256sum :=
    .concurrent d ctx rawurl outPath verbose md5sum sha256sum

/-- A single-stream downloader that only records how it is used. -/
def recordSingle (Ctx Chan PS : Type) :
    SingleAPI (Wiring Chan PS) Ctx Chan PS (Call Ctx Chan PS) where
  New := { progressCh := none, id := none, state := none }
  SetProgressChan d ch := { d with progressCh := some ch }
  SetID d id := { d with id := some id }
  SetProgressState d st := { d with state := some st }
  Download d ctx rawurl outPath verbose := .single d ctx rawurl outPath verbose

/-- The call `Download` makes, observed through the recording strategies. -/
def dispatched (env : Env) (srv : Server) (rawurl outPath : String) (verbose : Bool)
    (md5sum sha256sum : String) (progressCh id : Int) (w : World) : Call Unit Int Unit :=
  (Download env srv (recordConcurrent Unit Int Unit) (recordSingle Unit Int Unit) ()
    rawurl outPath verbose md5sum sha256sum progressCh id w).1

/-- The concurrent strategy with a progress state attached to the downloader
just before its `Download` runs; everything else is as in `conc`. -/
def ConcurrentAPI.attach {CD Ctx Chan PS R : Type} (conc : ConcurrentAPI CD Ctx Chan PS R)
    (st : PS) : ConcurrentAPI CD Ctx Chan PS R :=
  { conc with Download := fun d => conc.Download (conc.SetProgressState d st) }

/-- The single-stream strategy with a progress state attached to the downloader
just before its `Download` runs; everything else is as in `single`. -/
def SingleAPI.attach {SD Ctx Chan PS R : Type} (single : SingleAPI SD Ctx Chan PS R)
    (st : PS) : SingleAPI SD Ctx Chan PS R :=
  { single with Download := fun d => single.Download (single.SetProgressState d st) }

/-- The same call, made on a downloader that also carries the progress state. -/
def Call.withState {Ctx Chan PS : Type} (c : Call Ctx Chan PS) (st : PS) : Call Ctx Chan PS :=
  match c with
  | .concurrent d ctx rawurl outPath verbose md5sum sha256sum =>
    .concurrent { d with state := some st } ctx rawurl outPath verbose md5sum sha256sum
  | .single d ctx rawurl outPath verbose =>
    .single { d with state := some st } ctx rawurl outPath verbose

/-- The call `TUIDownload` makes, observed through the recording strategies. -/
def dispatchedTUI (env : Env) (srv : Server) (rawurl outPath : String) (verbose : Bool)
    (md5sum sha256sum : String) (progressCh id : Int) (state : Option Unit) (w : World) :
    Call Unit Int Unit :=
  (TUIDownload env srv (recordConcurrent Unit Int Unit) (recordSingle Unit Int Unit) ()
    rawurl outPath verbose md5sum sha256sum progressCh id state w).1

/-! ## The director's rule as the specification words it -/

/-- Modelled from the spec: the minimum segment size `M` of the segment
planner (its configuration is not in the sources at hand), default 1 MiB. -/
def minSegmentBytes : Nat := 1048576

/-- Modelled from the spec: the content length the concurrent strategy's
preflight obtains ("issue HEAD (or a range-probe GET) to obtain
`Content-Length`"; the preflight itself is not in the sources at hand): the
length announced by the HEAD response, else by the range-probe GET response,
`none` when neither announces one. -/
def preflightLength (env : Env) (srv : Server) (rawurl : String) (w : World) : Option Nat :=
  let known (r : Response) : Option Nat :=
    if 0 ≤ r.ContentLength then some r.ContentLength.toNat else none
  match (headResponse env srv rawurl w).bind known with
  | some n => some n
  | none =>
    match getOutcome env srv rawurl w with
    | .ok resp => known resp
    | .error _ => none

/-- Modelled from the spec: step 3 of the director ("If Supported AND a length
can be obtained AND length ≥ 2·M, dispatch CSD; otherwise dispatch SSD"). -/
def specStrategy (supported : Bool) (length : Option Nat) : Strategy :=
  match supported, length with
  | true, some n => if 2 * minSegmentBytes ≤ n then .concurrent else .single
  | _, _ => .single

/-- The headers test both probe stages apply to a response, as a boolean. -/
def advertisesRangeB (resp : Response) : Bool :=
  Contains (ToLower (resp.Header.Get "Accept-Ranges")) "bytes"
    || resp.Header.Get "Content-Range" != ""

/-- The world after one more request has been handed to the client. -/
def World.record (w : World) (req : Request) : World :=
  { w with sent := w.sent ++ [req] }

/-! ## Telemetry messages -/

/-- A Go `float64`, carried as its 64-bit pattern. -/
structure Float64 where
  bits : Nat
  deriving DecidableEq, Repr

/-- Modelled from the spec: the `Progress{id, downloaded, total,
speedBytesPerSec, activeConnections}` event; `messages.go` is not in the
sources at hand, the field names are those the tests use. -/
structure ProgressMsg where
  DownloadID : String
  Downloaded : Int
  Total : Int
  Speed : Float64
  ActiveConnections : Int
  deriving DecidableEq, Repr

/-- Modelled from the spec: the `Complete{id, filename, elapsed, total}` event
(`messages.go` is not in the sources at hand); `Elapsed` is a `time.Duration`
in nanoseconds. -/
structure DownloadCompleteMsg where
  DownloadID : String
  Filename : String
  Elapsed : Int
  Total : Int
  deriving DecidableEq, Repr

/-- Modelled from the spec: the `Error{id, err}` event (`messages.go` is not
in the sources at hand). -/
structure DownloadErrorMsg where
  DownloadID : String
  Err : Option GoError
  deriving DecidableEq, Repr

/-- Modelled from the spec: the `Started{id, url, filename, total, destPath}`
event (`messages.go` is not in the sources at hand). -/
structure DownloadStartedMsg where
  DownloadID : String
  URL : String
  Filename : String
  Total : Int
  DestPath : String
  deriving DecidableEq, Repr

/-- Modelled from the spec: the `Paused{id, downloaded}` event (`messages.go`
is not in the sources at hand). -/
structure DownloadPausedMsg where
  DownloadID : String
  Downloaded : Int
  deriving DecidableEq, Repr

/-- Modelled from the spec: the `Resumed{id}` event (`messages.go` is not in
the sources at hand). -/
structure DownloadResumedMsg where
  DownloadID : String
  deriving DecidableEq, Repr

/-- Modelled from the spec: the telemetry events as one tagged sum ("the six
telemetry variants are a tagged sum"), one variant per message struct. -/
inductive Msg where
  | progress (m : ProgressMsg)
  | complete (m : DownloadCompleteMsg)
  | error (m : DownloadErrorMsg)
  | started (m : DownloadStartedMsg)
  | paused (m : DownloadPausedMsg)
  | resumed (m : DownloadResumedMsg)
  deriving DecidableEq, Repr

/-- A field value as an interface value carries it. -/
inductive Value where
  | str (s : String)
  | int (n : Int)
  | float (f : Float64)
  | err (e : Option GoError)
  deriving DecidableEq, Repr

/-- Modelled from the spec: a Go `interface{}` value as the consumer of the
bus receives it (`messages.go` is not in the sources at hand): the name of its
dynamic type, which is what `fmt.Sprintf("%T", msg)` prints, and the values of
its fields in declaration order. -/
structure Iface where
  dynType : String
  fields : List Value
  deriving DecidableEq, Repr

/-- `interface{}(m)` for a `ProgressMsg`. -/
def ProgressMsg.toIface (m : ProgressMsg) : Iface :=
  ⟨"messages.ProgressMsg",
    [.str m.DownloadID, .int m.Downloaded, .int m.Total, .float m.Speed,
      .int m.ActiveConnections]⟩

/-- `interface{}(m)` for a `DownloadCompleteMsg`. -/
def DownloadCompleteMsg.toIface (m : DownloadCompleteMsg) : Iface :=
  ⟨"messages.DownloadCompleteMsg",
    [.str m.DownloadID, .str m.Filename, .int m.Elapsed, .int m.Total]⟩

/-- `interface{}(m)` for a `DownloadErrorMsg`. -/
def DownloadErrorMsg.toIface (m : DownloadErrorMsg) : Iface :=
  ⟨"messages.DownloadErrorMsg", [.str m.DownloadID, .err m.Err]⟩

/-- `interface{}(m)` for a `DownloadStartedMsg`. -/
def DownloadStartedMsg.toIface (m : DownloadStartedMsg) : Iface :=
  ⟨"messages.DownloadStartedMsg",
    [.str m.DownloadID, .str m.URL, .str m.Filename, .int m.Total, .str m.DestPath]⟩

/-- `interface{}(m)` for a `DownloadPausedMsg`. -/
def DownloadPausedMsg.toIface (m : DownloadPausedMsg) : Iface :=
  ⟨"messages.DownloadPausedMsg", [.str m.DownloadID, .int m.Downloaded]⟩

/-- `interface{}(m)` for a `DownloadResumedMsg`. -/
def DownloadResumedMsg.toIface (m : DownloadResumedMsg) : Iface :=
  ⟨"messages.DownloadResumedMsg", [.str m.DownloadID]⟩

/-- `case ProgressMsg:` of a type switch: matches when the dynamic type is
`ProgressMsg` and then yields the struct held. -/
def Iface.asProgressMsg (i : Iface) : Option ProgressMsg :=
  if i.dynType = "messages.ProgressMsg" then
    match i.fields with
    | [.str id, .int downloaded, .int total, .float speed, .int conns] =>
      some ⟨id, downloaded, total, speed, conns⟩
    | _ => none
  else none

/-- `case DownloadCompleteMsg:` of a type switch. -/
def Iface.asDownloadCompleteMsg (i : Iface) : Option DownloadCompleteMsg :=
  if i.dynType = "messages.DownloadCompleteMsg" then
    match i.fields with
    | [.str id, .str filename, .int elapsed, .int total] => some ⟨id, filename, elapsed, total⟩
    | _ => none
  else none

/-- `case DownloadErrorMsg:` of a type switch. -/
def Iface.asDownloadErrorMsg (i : Iface) : Option DownloadErrorMsg :=
  if i.dynType = "messages.DownloadErrorMsg" then
    match i.fields with
    | [.str id, .err e] => some ⟨id, e⟩
    | _ => none
  else none

/-- `case DownloadStartedMsg:` of a type switch. -/
def Iface.asDownloadStartedMsg (i : Iface) : Option DownloadStartedMsg :=
  if i.dynType = "messages.DownloadStartedMsg" then
    match i.fields with
    | [.str id, .str url, .str filename, .int total, .str dest] =>
      some ⟨id, url, filename, total, dest⟩
    | _ => none
  else none

/-- `case DownloadPausedMsg:` of a type switch. -/
def Iface.asDownloadPausedMsg (i : Iface) : Option DownloadPausedMsg :=
  if i.dynType = "messages.DownloadPausedMsg" then
    match i.fields with
    | [.str id, .int downloaded] => some ⟨id, downloaded⟩
    | _ => none
  else none

/-- `case DownloadResumedMsg:` of a type switch. -/
def Iface.asDownloadResumedMsg (i : Iface) : Option DownloadResumedMsg :=
  if i.dynType = "messages.DownloadResumedMsg" then
    match i.fields with
    | [.str id] => some ⟨id⟩
    | _ => none
  else none

/-- Whether case number `k` of the six-case type switch (in the order of the
test's list) matches the interface value. -/
def Iface.caseMatches (i : Iface) : Fin 6 → Bool
  | 0 => i.asProgressMsg.isSome
  | 1 => i.asDownloadCompleteMsg.isSome
  | 2 => i.asDownloadErrorMsg.isSome
  | 3 => i.asDownloadStartedMsg.isSome
  | 4 => i.asDownloadPausedMsg.isSome
  | 5 => i.asDownloadResumedMsg.isSome

/-- The six-case type switch of a consumer, cases tried in order, with a
`default` that yields nothing: the variant of the tagged sum it lands in. -/
def typeSwitch (i : Iface) : Option Msg :=
  match i.asProgressMsg with
  | some m => some (.progress m)
  | none =>
  match i.asDownloadCompleteMsg with
  | some m => some (.complete m)
  | none =>
  match i.asDownloadErrorMsg with
  | some m => some (.error m)
  | none =>
  match i.asDownloadStartedMsg with
  | some m => some (.started m)
  | none =>
  match i.asDownloadPausedMsg with
  | some m => some (.paused m)
  | none =>
  match i.asDownloadResumedMsg with
  | some m => some (.resumed m)
  | none => none

/-- The interface value a message of the tagged sum is sent as. -/
def Msg.toIface : Msg → Iface
  | .progress m => m.toIface
  | .complete m => m.toIface
  | .error m => m.toIface
  | .started m => m.toIface
  | .paused m => m.toIface
  | .resumed m => m.toIface

/-- The number of a message's variant, in the order of the test's list. -/
def Msg.variant : Msg → Fin 6
  | .progress _ => 0
  | .complete _ => 1
  | .error _ => 2
  | .started _ => 3
  | .paused _ => 4
  | .resumed _ => 5

/-- The six interface values of `TestMessageTypes_AreDistinct`: each struct
with only its `DownloadID` set. -/
def testMessages : List Iface :=
  [ ProgressMsg.toIface ⟨"progress", 0, 0, ⟨0⟩, 0⟩,
    DownloadCompleteMsg.toIface ⟨"complete", "", 0, 0⟩,
    DownloadErrorMsg.toIface ⟨"error", none⟩,
    DownloadStartedMsg.toIface ⟨"started", "", "", 0, ""⟩,
    DownloadPausedMsg.toIface ⟨"paused", 0⟩,
    DownloadResumedMsg.toIface ⟨"resumed"⟩ ]

/-! ## The probe between its accesses to the shared cache -/

/-- The network part of the GET stage (manager.go lines 94-118): the verdict
the probe is about to store, or the error it returns. The cache is not
touched. -/
def probeGetVerdict (env : Env) (srv : Server) (rawurl : String) (w : World) :
    Except GoError Bool × World :=
  match NewRequestWithContext env MethodGet rawurl with
  | .error err => (.error err, w)
  | .ok getReq =>
    let getReq := getReq.SetHeader "Range" "bytes=0-0"
    let getReq := getReq.SetHeader "User-Agent" ua
    match Do srv getReq w with
    | (.error err, w) => (.error err, w)
    | (.ok resp, w) =>
      if resp.StatusCode = StatusPartialContent then
        (.ok true, w)
      else if Contains (ToLower (resp.Header.Get "Accept-Ranges")) "bytes"
          || resp.Header.Get "Content-Range" != "" then
        (.ok true, w)
      else
        (.ok false, w)

/-- The network part of the probe (manager.go lines 75-118), between the
`Load` that missed and the `Store`: the verdict about to be stored, or the
error returned. The cache is not touched. -/
def probeVerdict (env : Env) (srv : Server) (rawurl : String) (w : World) :
    Except GoError Bool × World :=
  match NewRequestWithContext env MethodHead rawurl with
  | .ok headReq =>
    let headReq := headReq.SetHeader "User-Agent" ua
    match Do srv headReq w with
    | (.ok resp, w) =>
      if Contains (ToLower (resp.Header.Get "Accept-Ranges")) "bytes" then
        (.ok true, w)
      else if resp.Header.Get "Content-Range" != "" then
        (.ok true, w)
      else
        probeGetVerdict env srv rawurl w
    | (.error _, w) => probeGetVerdict env srv rawurl w
  | .error _ => probeGetVerdict env srv rawurl w

/-- A call of `checkRangeSupport` in flight, cut at its two accesses to
`rangeSupportCache`: just called; past the `Load` that missed (line 71) and
about to talk to the origin; verdict obtained and about to `Store` it (lines
84, 88, 111, 115, 119); returned. -/
inductive ProbeTask where
  | called (rawurl : String)
  | probing (rawurl hostKey : String)
  | storing (hostKey : String) (v : Bool)
  | returned (v : Bool) (err : Option GoError)
  deriving DecidableEq, Repr

/-- One stretch of a call of `checkRangeSupport`, run without interruption on
the shared world: parse and `Load`; the network calls; the `Store`. -/
def ProbeTask.step (env : Env) (srv : Server) : ProbeTask → World → ProbeTask × World
  | .called rawurl, w =>
    match env.Parse rawurl with
    | .error err => (.returned false (some err), w)
    | .ok u =>
      let hostKey := u.Host
      match w.rangeSupportCache.Load hostKey with
      | some v => (.returned v none, w)
      | none => (.probing rawurl hostKey, w)
  | .probing rawurl hostKey, w =>
    match probeVerdict env srv rawurl w with
    | (.error err, w) => (.returned false (some err), w)
    | (.ok v, w) => (.storing hostKey v, w)
  | .storing hostKey v, w => (.returned v none, w.Store hostKey v)
  | .returned v err, w => (.returned v err, w)

/-- A call run alone from start to finish: its three stretches in a row. -/
def ProbeTask.runAlone (env : Env) (srv : Server) (rawurl : String) (w : World) :
    ProbeTask × World :=
  let s1 := ProbeTask.step env srv (.called rawurl) w
  let s2 := ProbeTask.step env srv s1.1 s1.2
  ProbeTask.step env srv s2.1 s2.2

/-- Which of two calls in flight runs its next stretch. -/
inductive Turn where
  | first
  | second
  deriving DecidableEq, Repr

/-- Two calls of `checkRangeSupport` in flight in one process (two downloads
started together), sharing the cache and the HTTP client. -/
structure Race where
  first : ProbeTask
  second : ProbeTask
  w : World
  deriving DecidableEq, Repr

/-- The call whose turn it is runs its next stretch on the shared world. -/
def Race.step (env : Env) (srv : Server) (r : Race) : Turn → Race
  | .first =>
    let s := r.first.step env srv r.w
    { first := s.1, second := r.second, w := s.2 }
  | .second =>
    let s := r.second.step env srv r.w
    { first := r.first, second := s.1, w := s.2 }

/-- The two calls run under a schedule of turns. -/
def Race.run (env : Env) (srv : Server) (r : Race) (turns : List Turn) : Race :=
  turns.foldl (Race.step env srv) r

/-! ## Concrete surroundings for worked runs -/

/-- A stand-in for `net/url.Parse` on the URLs used in worked runs. For
`scheme://authority…` the scheme is lower-cased and `Host` is the authority up
to the first `/`, `?` or `#`, kept verbatim, letter case included, as `net/url`
keeps it; a URL with a control character or starting with `:` is refused; any
other text has an empty `Host`. -/
def sampleParse (rawurl : String) : Except GoError URL :=
  let cs := rawurl.data
  if cs.any (fun c => c.val < 0x20 || c.val == 0x7f) then
    .error "net/url: invalid control character in URL"
  else
    let scheme := cs.takeWhile Char.isAlpha
    let rest := cs.dropWhile Char.isAlpha
    if "://".data.isPrefixOf rest && !scheme.isEmpty then
      let tail := rest.drop 3
      let inHost := fun c : Char => !(c == '/' || c == '?' || c == '#')
      .ok ⟨⟨scheme.map Char.toLower⟩, ⟨tail.takeWhile inHost⟩, ⟨tail.dropWhile inHost⟩⟩
    else if ":".data.isPrefixOf cs then
      .error "missing protocol scheme"
    else
      .ok { Scheme := "", Host := "", Path := rawurl }

/-- The standard library as it behaves on the worked runs: requests are always
built. -/
def sampleEnv : Env :=
  { Parse := sampleParse, newRequestError := fun _ _ => none }

/-- An environment whose `http.NewRequestWithContext` refuses every request. -/
def refusingEnv : Env :=
  { Parse := sampleParse, newRequestError := fun _ _ => some "net/http: nil Context" }

/-- An origin answering every request `200` with `Accept-Ranges: Bytes` and no
announced length. -/
def rangeServer : Server :=
  fun _ _ => .ok { StatusCode := 200, Header := [("Accept-Ranges", "Bytes")], ContentLength := -1 }

/-- An origin answering every request `200` with `Accept-Ranges: bytes` and a
ten-byte body. -/
def tinyRangeServer : Server :=
  fun _ _ => .ok { StatusCode := 200, Header := [("Accept-Ranges", "bytes")], ContentLength := 10 }

/-- An origin answering every request `200` without any range header. -/
def plainServer : Server :=
  fun _ _ => .ok { StatusCode := 200, Header := [], ContentLength := 10 }

/-- An origin that rejects HEAD with `405` and answers GET with `206`. -/
def getOnlyServer : Server :=
  fun _ req =>
    if req.Method = MethodHead then .ok { StatusCode := 405, Header := [], ContentLength := 0 }
    else .ok { StatusCode := 206, Header := [("Content-Range", "bytes 0-0/4096")],
               ContentLength := 1 }

/-- An origin that advertises `Accept-Ranges: bytes` for
`http://example.com/a` only and answers every other request `200` without any
range header. -/
def pathServer : Server :=
  fun _ req =>
    if req.URL = "http://example.com/a" then
      .ok { StatusCode := 200, Header := [("Accept-Ranges", "bytes")], ContentLength := 4096 }
    else .ok { StatusCode := 200, Header := [], ContentLength := 4096 }

/-- An origin that cannot be reached. -/
def downServer : Server :=
  fun _ _ => .error "dial tcp: connection refused"

/-- A fresh process: nothing cached, nothing sent. -/
def World.fresh : World :=
  { rangeSupportCache := [], sent := [] }

/-! ## Lemmas: strings -/

theorem containsChars_iff (s sub : List Char) : containsChars s sub = true ↔ sub <:+: s := by
  induction s with
  | nil => cases sub <;> simp [containsChars]
  | cons c cs ih =>
    rw [containsChars, Bool.or_eq_true, ih, List.infix_cons_iff, List.isPrefixOf_iff_prefix]

theorem Contains_ToLower_iff (v needle : String) :
    Contains (ToLower v) needle = true ↔ ContainsFold v needle := by
  unfold Contains ToLower ContainsFold
  rw [containsChars_iff]
  constructor
  · rintro ⟨s, t, h⟩
    have h1 : List.map Char.toLower v.data = s ++ (needle.data ++ t) := by
      rw [← List.append_assoc]; exact h.symm
    obtain ⟨pre, rest, hv, hpre, hrest⟩ := List.map_eq_append_iff.mp h1
    obtain ⟨mid, post, hr, hmid, hpost⟩ := List.map_eq_append_iff.mp hrest
    exact ⟨pre, mid, post, by rw [hv, hr, List.append_assoc], hmid⟩
  · rintro ⟨pre, mid, post, hv, hmid⟩
    refine ⟨pre.map Char.toLower, post.map Char.toLower, ?_⟩
    rw [hv, ← hmid]
    simp

/-- The test both probe stages apply to a response's headers. -/
theorem advertises_iff (resp : Response) :
    (Contains (ToLower (resp.Header.Get "Accept-Ranges")) "bytes"
      || resp.Header.Get "Content-Range" != "") = true ↔ advertisesRange resp := by
  unfold advertisesRange
  rw [Bool.or_eq_true, Contains_ToLower_iff]
  simp

/-! ## Lemmas: the cache -/

theorem SyncMap.Load_Store_self (m : SyncMap) (k : String) (v : Bool) :
    (m.Store k v).Load k = some v := by
  simp [SyncMap.Load, SyncMap.Store, List.lookup]

theorem SyncMap.Load_filter_ne (m : SyncMap) (k k' : String) (h : k' ≠ k) :
    List.lookup k' (m.filter (fun p => p.1 != k)) = List.lookup k' m := by
  induction m with
  | nil => rfl
  | cons p ps ih =>
    obtain ⟨a, b⟩ := p
    by_cases hak : a = k
    · subst hak
      have hne : (k' == a) = false := by simpa using h
      simp [List.filter, List.lookup, hne, ih]
    · have hk : (a != k) = true := by simpa using hak
      simp only [List.filter, hk, List.lookup]
      rw [ih]

theorem SyncMap.Load_Store_of_ne (m : SyncMap) (k k' : String) (v : Bool) (h : k' ≠ k) :
    (m.Store k v).Load k' = m.Load k' := by
  have hne : (k' == k) = false := by simpa using h
  simp only [SyncMap.Load, SyncMap.Store, List.lookup, hne]
  exact SyncMap.Load_filter_ne m k k' h


/-! ## Lemmas: the two stages of the probe -/

theorem advertisesRangeB_iff (resp : Response) :
    advertisesRangeB resp = true ↔ advertisesRange resp :=
  advertises_iff resp

theorem get_request_eq (rawurl : String) :
    Request.SetHeader (Request.SetHeader { Method := MethodGet, URL := rawurl, Header := [] }
      "Range" "bytes=0-0") "User-Agent" ua = probeGetRequest rawurl := by
  simp [Request.SetHeader, Header.Set, probeGetRequest]

theorem head_request_eq (rawurl : String) :
    Request.SetHeader { Method := MethodHead, URL := rawurl, Header := [] } "User-Agent" ua
      = probeHeadRequest rawurl := by
  simp [Request.SetHeader, Header.Set, probeHeadRequest]

theorem checkRangeSupportGet_refused (env : Env) (srv : Server) (rawurl k : String) (w : World)
    (e : GoError) (h : env.newRequestError MethodGet rawurl = some e) :
    checkRangeSupportGet env srv rawurl k w = ((false, some e), w) := by
  simp [checkRangeSupportGet, NewRequestWithContext, h]

theorem checkRangeSupportGet_failed (env : Env) (srv : Server) (rawurl k : String) (w : World)
    (e : GoError) (h : env.newRequestError MethodGet rawurl = none)
    (hs : srv w.sent (probeGetRequest rawurl) = .error e) :
    checkRangeSupportGet env srv rawurl k w = ((false, some e), w.record (probeGetRequest rawurl)) := by
  simp only [checkRangeSupportGet, NewRequestWithContext, h, get_request_eq, Do, hs]
  rfl

theorem checkRangeSupportGet_answered (env : Env) (srv : Server) (rawurl k : String) (w : World)
    (resp : Response) (h : env.newRequestError MethodGet rawurl = none)
    (hs : srv w.sent (probeGetRequest rawurl) = .ok resp) :
    checkRangeSupportGet env srv rawurl k w =
      ((decide (resp.StatusCode = StatusPartialContent) || advertisesRangeB resp, none),
        (w.record (probeGetRequest rawurl)).Store k
          (decide (resp.StatusCode = StatusPartialContent) || advertisesRangeB resp)) := by
  simp only [checkRangeSupportGet, NewRequestWithContext, h, get_request_eq, Do, hs]
  by_cases h206 : resp.StatusCode = StatusPartialContent
  · simp [h206, World.record]
  · by_cases hadv : advertisesRangeB resp = true
    · have hadv2 := hadv
      unfold advertisesRangeB at hadv2
      simp [h206, hadv, hadv2, World.record]
    · have hadv2 := hadv
      unfold advertisesRangeB at hadv2
      simp only [Bool.not_eq_true] at hadv hadv2
      simp [h206, hadv, hadv2, World.record]

theorem afterHead_cache (env : Env) (rawurl : String) (w : World) :
    (afterHead env rawurl w).rangeSupportCache = w.rangeSupportCache := by
  unfold afterHead; split <;> rfl

/-- On a cache miss the probe is its HEAD stage followed, unless that was
decisive, by its GET stage. -/
theorem checkRangeSupport_miss (env : Env) (srv : Server) (rawurl : String) (w : World) (u : URL)
    (hp : env.Parse rawurl = .ok u) (hm : w.rangeSupportCache.Load u.Host = none) :
    checkRangeSupport env srv rawurl w =
      match headResponse env srv rawurl w with
      | some resp =>
        if advertisesRangeB resp then ((true, none), (afterHead env rawurl w).Store u.Host true)
        else checkRangeSupportGet env srv rawurl u.Host (afterHead env rawurl w)
      | none => checkRangeSupportGet env srv rawurl u.Host (afterHead env rawurl w) := by
  simp only [checkRangeSupport, hp, hm, NewRequestWithContext, headResponse, afterHead]
  cases hn : env.newRequestError MethodHead rawurl with
  | some e => simp
  | none =>
    simp only [head_request_eq, Do]
    cases hs : srv w.sent (probeHeadRequest rawurl) with
    | error e => simp
    | ok resp =>
      simp only [advertisesRangeB]
      by_cases h1 : Contains (ToLower (resp.Header.Get "Accept-Ranges")) "bytes" = true
      · simp [h1]
      · simp only [Bool.not_eq_true] at h1
        by_cases h2 : (resp.Header.Get "Content-Range" != "") = true
        · simp [h1, h2]
        · simp only [Bool.not_eq_true] at h2
          simp [h1, h2]


/-- The GET stage either fails, leaving the cache alone, or stores the verdict
it returns under the host key. -/
theorem checkRangeSupportGet_outcome (env : Env) (srv : Server) (rawurl k : String) (w : World) :
    (∃ e, (checkRangeSupportGet env srv rawurl k w).1 = (false, some e) ∧
      (checkRangeSupportGet env srv rawurl k w).2.rangeSupportCache = w.rangeSupportCache) ∨
    (∃ b, (checkRangeSupportGet env srv rawurl k w).1 = (b, none) ∧
      (checkRangeSupportGet env srv rawurl k w).2.rangeSupportCache
        = w.rangeSupportCache.Store k b) := by
  cases hn : env.newRequestError MethodGet rawurl with
  | some e =>
    left
    exact ⟨e, by rw [checkRangeSupportGet_refused env srv rawurl k w e hn]; exact ⟨rfl, rfl⟩⟩
  | none =>
    cases hs : srv w.sent (probeGetRequest rawurl) with
    | error e =>
      left
      exact ⟨e, by rw [checkRangeSupportGet_failed env srv rawurl k w e hn hs]; exact ⟨rfl, rfl⟩⟩
    | ok resp =>
      right
      exact ⟨_, by rw [checkRangeSupportGet_answered env srv rawurl k w resp hn hs]; exact ⟨rfl, rfl⟩⟩

/-- Every run of the probe is of one of four kinds: the URL does not parse; the
host is cached; the host is not cached and the probe fails without touching the
cache; the host is not cached and the verdict returned is stored under it. -/
theorem checkRangeSupport_outcome (env : Env) (srv : Server) (rawurl : String) (w : World) :
    (∃ e, env.Parse rawurl = .error e ∧ checkRangeSupport env srv rawurl w = ((false, some e), w)) ∨
    (∃ u v, env.Parse rawurl = .ok u ∧ w.rangeSupportCache.Load u.Host = some v ∧
      checkRangeSupport env srv rawurl w = ((v, none), w)) ∨
    (∃ u e, env.Parse rawurl = .ok u ∧ w.rangeSupportCache.Load u.Host = none ∧
      (checkRangeSupport env srv rawurl w).1 = (false, some e) ∧
      (checkRangeSupport env srv rawurl w).2.rangeSupportCache = w.rangeSupportCache) ∨
    (∃ u b, env.Parse rawurl = .ok u ∧ w.rangeSupportCache.Load u.Host = none ∧
      (checkRangeSupport env srv rawurl w).1 = (b, none) ∧
      (checkRangeSupport env srv rawurl w).2.rangeSupportCache
        = w.rangeSupportCache.Store u.Host b) := by
  cases hp : env.Parse rawurl with
  | error e =>
    left
    exact ⟨e, rfl, by simp [checkRangeSupport, hp]⟩
  | ok u =>
    right
    cases hc : w.rangeSupportCache.Load u.Host with
    | some v =>
      left
      exact ⟨u, v, rfl, hc, by simp [checkRangeSupport, hp, hc]⟩
    | none =>
      right
      have hget := checkRangeSupportGet_outcome env srv rawurl u.Host (afterHead env rawurl w)
      rw [afterHead_cache] at hget
      have hstage : checkRangeSupport env srv rawurl w
            = ((true, none), (afterHead env rawurl w).Store u.Host true) ∨
          checkRangeSupport env srv rawurl w
            = checkRangeSupportGet env srv rawurl u.Host (afterHead env rawurl w) := by
        rw [checkRangeSupport_miss env srv rawurl w u hp hc]
        cases headResponse env srv rawurl w with
        | none => right; rfl
        | some resp =>
          by_cases ha : advertisesRangeB resp = true
          · left; simp [ha]
          · right; simp [ha]
      rcases hstage with h | h
      · right
        refine ⟨u, true, rfl, hc, by rw [h], ?_⟩
        rw [h]
        show (afterHead env rawurl w).rangeSupportCache.Store u.Host true = _
        rw [afterHead_cache]
      · rw [h]
        rcases hget with ⟨e, h1, h2⟩ | ⟨b, h1, h2⟩
        · left; exact ⟨u, e, rfl, hc, h1, h2⟩
        · right; exact ⟨u, b, rfl, hc, h1, h2⟩

/-- A cache hit answers from the cache and leaves the world alone. -/
theorem checkRangeSupport_hit (env : Env) (srv : Server) (rawurl : String) (w : World)
    (u : URL) (v : Bool) (hp : env.Parse rawurl = .ok u)
    (hc : w.rangeSupportCache.Load u.Host = some v) :
    checkRangeSupport env srv rawurl w = ((v, none), w) := by
  simp [checkRangeSupport, hp, hc]

/-- A probe that returns a nil error leaves its verdict in the cache under the
URL's host. -/
theorem checkRangeSupport_success_cached (env : Env) (srv : Server) (rawurl : String)
    (w : World) (u : URL) (hp : env.Parse rawurl = .ok u)
    (he : (checkRangeSupport env srv rawurl w).1.2 = none) :
    (checkRangeSupport env srv rawurl w).2.rangeSupportCache.Load u.Host
      = some (checkRangeSupport env srv rawurl w).1.1 := by
  rcases checkRangeSupport_outcome env srv rawurl w with
    ⟨e, hp', _⟩ | ⟨u', v, hp', hc, hr⟩ | ⟨u', e, _, _, hr, _⟩ | ⟨u', b, hp', _, hr, hcache⟩
  · rw [hp] at hp'; cases hp'
  · rw [hp] at hp'; cases hp'
    rw [hr]; exact hc
  · rw [hr] at he; cases he
  · rw [hp] at hp'; cases hp'
    rw [hcache, hr]
    exact SyncMap.Load_Store_self _ _ _

/-- A probe that returns an error returns `false` with it and leaves the cache
as it was. -/
theorem checkRangeSupport_failure (env : Env) (srv : Server) (rawurl : String) (w : World)
    (e : GoError) (he : (checkRangeSupport env srv rawurl w).1.2 = some e) :
    (checkRangeSupport env srv rawurl w).1.1 = false ∧
    (checkRangeSupport env srv rawurl w).2.rangeSupportCache = w.rangeSupportCache := by
  rcases checkRangeSupport_outcome env srv rawurl w with
    ⟨e', _, hr⟩ | ⟨u', v, _, _, hr⟩ | ⟨u', e', _, _, hr, hcache⟩ | ⟨u', b, _, _, hr, _⟩
  · rw [hr]; exact ⟨rfl, rfl⟩
  · rw [hr] at he; cases he
  · rw [hr]; exact ⟨rfl, hcache⟩
  · rw [hr] at he; cases he

/-- A probe changes the cache at most at the host of its URL, and only when
that host had no verdict. -/
theorem checkRangeSupport_frame (env : Env) (srv : Server) (rawurl : String) (w : World)
    (k : String) :
    (checkRangeSupport env srv rawurl w).2.rangeSupportCache.Load k = w.rangeSupportCache.Load k ∨
    (w.rangeSupportCache.Load k = none ∧ ∃ u, env.Parse rawurl = .ok u ∧ u.Host = k) := by
  rcases checkRangeSupport_outcome env srv rawurl w with
    ⟨e', _, hr⟩ | ⟨u', v, _, _, hr⟩ | ⟨u', e', _, _, _, hcache⟩ | ⟨u', b, hp, hm, _, hcache⟩
  · left; rw [hr]
  · left; rw [hr]
  · left; rw [hcache]
  · by_cases hk : k = u'.Host
    · right; subst hk; exact ⟨hm, u', hp, rfl⟩
    · left; rw [hcache]; exact SyncMap.Load_Store_of_ne _ _ _ _ hk

/-- When the HEAD stage is decisive or the GET request is answered, the probe
returns a nil error. -/
theorem checkRangeSupport_answered (env : Env) (srv : Server) (rawurl : String) (w : World)
    (u : URL) (hp : env.Parse rawurl = .ok u)
    (hresp : (∃ r, headResponse env srv rawurl w = some r ∧ advertisesRange r) ∨
      (∃ r, getOutcome env srv rawurl w = .ok r)) :
    (checkRangeSupport env srv rawurl w).1.2 = none := by
  cases hc : w.rangeSupportCache.Load u.Host with
  | some v => rw [checkRangeSupport_hit env srv rawurl w u v hp hc]
  | none =>
    rw [checkRangeSupport_miss env srv rawurl w u hp hc]
    have hget : (∃ r, getOutcome env srv rawurl w = .ok r) →
        (checkRangeSupportGet env srv rawurl u.Host (afterHead env rawurl w)).1.2 = none := by
      rintro ⟨r, hg⟩
      have hn : env.newRequestError MethodGet rawurl = none := by
        cases h : env.newRequestError MethodGet rawurl with
        | none => rfl
        | some e => simp [getOutcome, h] at hg
      have hs : srv (afterHead env rawurl w).sent (probeGetRequest rawurl) = .ok r := by
        simpa [getOutcome, hn] using hg
      rw [checkRangeSupportGet_answered env srv rawurl u.Host _ r hn hs]
    cases hr : headResponse env srv rawurl w with
    | none =>
      rcases hresp with ⟨r, h, _⟩ | h
      · rw [hr] at h; cases h
      · exact hget h
    | some r0 =>
      by_cases hb : advertisesRangeB r0 = true
      · simp [hb]
      · rcases hresp with ⟨r, h, ha⟩ | h
        · rw [hr] at h; cases h
          exact absurd ((advertisesRangeB_iff _).mpr ha) hb
        · simp only [hb]
          exact hget h

/-- The GET stage, run after the HEAD stage, fails exactly when the GET request
cannot be built or its transport fails, and then with that error. -/
theorem checkRangeSupportGet_error_iff (env : Env) (srv : Server) (rawurl k : String)
    (w : World) (e : GoError) :
    (checkRangeSupportGet env srv rawurl k (afterHead env rawurl w)).1.2 = some e ↔
      getOutcome env srv rawurl w = .error e := by
  unfold getOutcome
  cases hn : env.newRequestError MethodGet rawurl with
  | some e' =>
    rw [checkRangeSupportGet_refused env srv rawurl k _ e' hn]
    simp
  | none =>
    cases hs : srv (afterHead env rawurl w).sent (probeGetRequest rawurl) with
    | error e' =>
      rw [checkRangeSupportGet_failed env srv rawurl k _ e' hn hs]
      simp
    | ok resp =>
      rw [checkRangeSupportGet_answered env srv rawurl k _ resp hn hs]
      simp

/-- The probe returns an error in exactly three situations: the URL does not
parse; or the host is not cached, the HEAD stage is not decisive, and the GET
request cannot be built or its transport fails. -/
theorem checkRangeSupport_error_iff (env : Env) (srv : Server) (rawurl : String) (w : World)
    (e : GoError) :
    (checkRangeSupport env srv rawurl w).1.2 = some e ↔
      (env.Parse rawurl = .error e ∨
        ∃ u, env.Parse rawurl = .ok u ∧ w.rangeSupportCache.Load u.Host = none ∧
          (∀ r, headResponse env srv rawurl w = some r → ¬ advertisesRange r) ∧
          getOutcome env srv rawurl w = .error e) := by
  cases hp : env.Parse rawurl with
  | error e' => simp [checkRangeSupport, hp]
  | ok u =>
    cases hc : w.rangeSupportCache.Load u.Host with
    | some v => simp [checkRangeSupport_hit env srv rawurl w u v hp hc, hc]
    | none =>
      rw [checkRangeSupport_miss env srv rawurl w u hp hc]
      cases hr : headResponse env srv rawurl w with
      | none =>
        simp only [checkRangeSupportGet_error_iff]
        simp [hc]
      | some r0 =>
        by_cases hb : advertisesRangeB r0 = true
        · have ha := (advertisesRangeB_iff r0).mp hb
          simp [hb, ha]
        · have ha : ¬ advertisesRange r0 := fun h => hb ((advertisesRangeB_iff r0).mpr h)
          simp only [hb]
          simp [hc, ha, checkRangeSupportGet_error_iff]

section DirectorLemmas

variable {CD SD Ctx Chan PS R : Type}

/-- `Download` hands the job to the concurrent strategy when the probe's
verdict is `true` and to the single-stream strategy otherwise. -/
theorem Download_eq (env : Env) (srv : Server) (conc : ConcurrentAPI CD Ctx Chan PS R)
    (single : SingleAPI SD Ctx Chan PS R) (ctx : Ctx) (rawurl outPath : String)
    (verbose : Bool) (md5sum sha256sum : String) (progressCh : Chan) (id : Int) (w : World) :
    Download env srv conc single ctx rawurl outPath verbose md5sum sha256sum progressCh id w =
      (if (checkRangeSupport env srv rawurl w).1.1 = true then
          conc.Download (conc.SetID (conc.SetProgressChan conc.New progressCh) id)
            ctx rawurl outPath verbose md5sum sha256sum
        else
          single.Download (single.SetID (single.SetProgressChan single.New progressCh) id)
            ctx rawurl outPath verbose,
        (checkRangeSupport env srv rawurl w).2) := by
  unfold Download
  by_cases h : (checkRangeSupport env srv rawurl w).1.1 = true <;> simp [h]

/-- The downloader `TUIDownload` wires: after the channel and the id, the
progress state when one is given. -/
theorem TUIDownload_eq (env : Env) (srv : Server) (conc : ConcurrentAPI CD Ctx Chan PS R)
    (single : SingleAPI SD Ctx Chan PS R) (ctx : Ctx) (rawurl outPath : String)
    (verbose : Bool) (md5sum sha256sum : String) (progressCh : Chan) (id : Int)
    (state : Option PS) (w : World) :
    TUIDownload env srv conc single ctx rawurl outPath verbose md5sum sha256sum progressCh id
        state w =
      (if (checkRangeSupport env srv rawurl w).1.1 = true then
          conc.Download
            (match state with
              | some st =>
                conc.SetProgressState (conc.SetID (conc.SetProgressChan conc.New progressCh) id) st
              | none => conc.SetID (conc.SetProgressChan conc.New progressCh) id)
            ctx rawurl outPath verbose md5sum sha256sum
        else
          single.Download
            (match state with
              | some st =>
                single.SetProgressState
                  (single.SetID (single.SetProgressChan single.New progressCh) id) st
              | none => single.SetID (single.SetProgressChan single.New progressCh) id)
            ctx rawurl outPath verbose,
        (checkRangeSupport env srv rawurl w).2) := by
  unfold TUIDownload
  by_cases h : (checkRangeSupport env srv rawurl w).1.1 = true <;> simp [h]

end DirectorLemmas

section DigestLemmas

variable {CD SD Ctx Chan PS R : Type}

/-- When the probe's verdict is `false`, the result of `Download` does not
depend on the digests it was given. -/
theorem Download_single_ignores_digests (env : Env) (srv : Server)
    (conc : ConcurrentAPI CD Ctx Chan PS R) (single : SingleAPI SD Ctx Chan PS R) (ctx : Ctx)
    (rawurl outPath : String) (verbose : Bool) (md5sum sha256sum md5sum2 sha256sum2 : String)
    (progressCh : Chan) (id : Int) (w : World)
    (hv : (checkRangeSupport env srv rawurl w).1.1 = false) :
    Download env srv conc single ctx rawurl outPath verbose md5sum sha256sum progressCh id w =
      Download env srv conc single ctx rawurl outPath verbose md5sum2 sha256sum2 progressCh id
        w := by
  rw [Download_eq, Download_eq]
  simp [hv]

end DigestLemmas

/-- The GET stage hands its request to the client exactly when the request can
be built. -/
theorem checkRangeSupportGet_sent (env : Env) (srv : Server) (rawurl k : String) (w : World) :
    (checkRangeSupportGet env srv rawurl k w).2.sent =
      match env.newRequestError MethodGet rawurl with
      | none => w.sent ++ [probeGetRequest rawurl]
      | some _ => w.sent := by
  cases hn : env.newRequestError MethodGet rawurl with
  | some e => rw [checkRangeSupportGet_refused env srv rawurl k w e hn]
  | none =>
    cases hs : srv w.sent (probeGetRequest rawurl) with
    | error e => rw [checkRangeSupportGet_failed env srv rawurl k w e hn hs]; rfl
    | ok resp => rw [checkRangeSupportGet_answered env srv rawurl k w resp hn hs]; rfl

/-- On a cache miss, a probe whose HEAD or GET request can be built hands at
least one request for its URL to the client. -/
theorem checkRangeSupport_miss_contacts (env : Env) (srv : Server) (rawurl : String) (w : World)
    (u : URL) (hp : env.Parse rawurl = .ok u) (hm : w.rangeSupportCache.Load u.Host = none)
    (hb : env.newRequestError MethodHead rawurl = none ∨
      env.newRequestError MethodGet rawurl = none) :
    ∃ req rest, (checkRangeSupport env srv rawurl w).2.sent = w.sent ++ req :: rest ∧
      req.URL = rawurl := by
  have hget := checkRangeSupportGet_sent env srv rawurl u.Host (afterHead env rawurl w)
  have hstage : checkRangeSupport env srv rawurl w
        = ((true, none), (afterHead env rawurl w).Store u.Host true) ∨
      checkRangeSupport env srv rawurl w
        = checkRangeSupportGet env srv rawurl u.Host (afterHead env rawurl w) := by
    rw [checkRangeSupport_miss env srv rawurl w u hp hm]
    cases headResponse env srv rawurl w with
    | none => right; rfl
    | some resp =>
      by_cases ha : advertisesRangeB resp = true
      · left; simp [ha]
      · right; simp [ha]
  cases hn : env.newRequestError MethodHead rawurl with
  | none =>
    have hw : (afterHead env rawurl w).sent = w.sent ++ [probeHeadRequest rawurl] := by
      simp [afterHead, hn]
    rcases hstage with h | h
    · exact ⟨probeHeadRequest rawurl, [], by rw [h]; exact hw, rfl⟩
    · rw [h, hget, hw]
      cases env.newRequestError MethodGet rawurl with
      | none => exact ⟨probeHeadRequest rawurl, [probeGetRequest rawurl], by simp, rfl⟩
      | some e => exact ⟨probeHeadRequest rawurl, [], rfl, rfl⟩
  | some e =>
    have hg : env.newRequestError MethodGet rawurl = none := by
      rcases hb with hb | hb
      · rw [hn] at hb; cases hb
      · exact hb
    have hw : afterHead env rawurl w = w := by simp [afterHead, hn]
    have hr : headResponse env srv rawurl w = none := by simp [headResponse, hn]
    have h : checkRangeSupport env srv rawurl w
        = checkRangeSupportGet env srv rawurl u.Host (afterHead env rawurl w) := by
      rw [checkRangeSupport_miss env srv rawurl w u hp hm, hr]
    rw [h, hget, hw, hg]
    exact ⟨probeGetRequest rawurl, [], rfl, rfl⟩

/-- No interface value is matched by two different cases of the six-case type
switch: each case requires its own dynamic type name. -/
theorem caseMatches_exclusive (i : Iface) (k j : Fin 6) (h1 : i.caseMatches k = true)
    (h2 : i.caseMatches j = true) : k = j := by
  have key : ∀ n : Fin 6, i.caseMatches n = true →
      i.dynType = ["messages.ProgressMsg", "messages.DownloadCompleteMsg",
        "messages.DownloadErrorMsg", "messages.DownloadStartedMsg",
        "messages.DownloadPausedMsg", "messages.DownloadResumedMsg"].get n := by
    intro n hn
    fin_cases n <;>
      simp only [Iface.caseMatches, Iface.asProgressMsg, Iface.asDownloadCompleteMsg,
        Iface.asDownloadErrorMsg, Iface.asDownloadStartedMsg, Iface.asDownloadPausedMsg,
        Iface.asDownloadResumedMsg] at hn <;>
      split_ifs at hn with h <;> first | exact h | cases hn
  have hk := key k h1
  have hj := key j h2
  rw [hk] at hj
  revert hj
  fin_cases k <;> fin_cases j <;> decide

/-- The GET stage is its network part followed, when a verdict was obtained, by
the `Store`. -/
theorem probeGetVerdict_eq (env : Env) (srv : Server) (rawurl k : String) (w : World) :
    checkRangeSupportGet env srv rawurl k w =
      match probeGetVerdict env srv rawurl w with
      | (.error err, w1) => ((false, some err), w1)
      | (.ok v, w1) => ((v, none), w1.Store k v) := by
  unfold checkRangeSupportGet probeGetVerdict
  cases NewRequestWithContext env MethodGet rawurl with
  | error e => rfl
  | ok req =>
    simp only [Do]
    cases srv w.sent ((req.SetHeader "Range" "bytes=0-0").SetHeader "User-Agent" ua) with
    | error e => rfl
    | ok resp =>
      simp only
      split_ifs <;> rfl

/-- On a cache miss the probe is its network part followed, when a verdict was
obtained, by the `Store`. -/
theorem probeVerdict_eq (env : Env) (srv : Server) (rawurl : String) (w : World) (u : URL)
    (hp : env.Parse rawurl = .ok u) (hm : w.rangeSupportCache.Load u.Host = none) :
    checkRangeSupport env srv rawurl w =
      match probeVerdict env srv rawurl w with
      | (.error err, w1) => ((false, some err), w1)
      | (.ok v, w1) => ((v, none), w1.Store u.Host v) := by
  unfold checkRangeSupport probeVerdict
  simp only [hp, hm]
  cases NewRequestWithContext env MethodHead rawurl with
  | error e => exact probeGetVerdict_eq env srv rawurl u.Host w
  | ok req =>
    simp only [Do]
    cases srv w.sent (req.SetHeader "User-Agent" ua) with
    | error e => exact probeGetVerdict_eq env srv rawurl u.Host _
    | ok resp =>
      simp only
      split_ifs
      · rfl
      · rfl
      · exact probeGetVerdict_eq env srv rawurl u.Host _

/-- A call cut into its three stretches and run alone is `checkRangeSupport`. -/
theorem runAlone_eq (env : Env) (srv : Server) (rawurl : String) (w : World) :
    ProbeTask.runAlone env srv rawurl w =
      (.returned (checkRangeSupport env srv rawurl w).1.1 (checkRangeSupport env srv rawurl w).1.2,
        (checkRangeSupport env srv rawurl w).2) := by
  cases hp : env.Parse rawurl with
  | error e => simp [ProbeTask.runAlone, ProbeTask.step, checkRangeSupport, hp]
  | ok u =>
    cases hc : w.rangeSupportCache.Load u.Host with
    | some v => simp [ProbeTask.runAlone, ProbeTask.step, checkRangeSupport, hp, hc]
    | none =>
      rw [probeVerdict_eq env srv rawurl w u hp hc]
      simp only [ProbeTask.runAlone, ProbeTask.step, hp, hc]
      rcases hv : probeVerdict env srv rawurl w with ⟨_ | v, w1⟩ <;> simp [ProbeTask.step]

/-- Under a schedule that lets the first call finish before anything else
happens, the shared world is the one `checkRangeSupport` produces. -/
theorem Race.run_first_alone (env : Env) (srv : Server) (rawurl : String) (t : ProbeTask)
    (w : World) :
    Race.run env srv ⟨.called rawurl, t, w⟩ [.first, .first, .first] =
      ⟨.returned (checkRangeSupport env srv rawurl w).1.1 (checkRangeSupport env srv rawurl w).1.2,
        t, (checkRangeSupport env srv rawurl w).2⟩ := by
  have h := runAlone_eq env srv rawurl w
  simp only [ProbeTask.runAlone] at h
  simp only [Race.run, List.foldl, Race.step]
  rw [h]

/-! ## The claims -/

/-- C1: for a URL whose host is present in the range-support cache,
`checkRangeSupport` returns exactly the cached verdict with a nil error and
leaves the world as it was, whatever the server would answer: the record of
requests is unchanged, so neither the HEAD nor the GET is issued. -/
theorem checkRangeSupport_cached (env : Env) (srv : Server) (rawurl : String) (w : World)
    (u : URL) (v : Bool) (hp : env.Parse rawurl = .ok u)
    (hc : w.rangeSupportCache.Load u.Host = some v) :
    checkRangeSupport env srv rawurl w = ((v, none), w) := by
  unfold checkRangeSupport
  simp only [hp, hc]

/-- Witness for C1: with `example.com` cached as supported, a probe of
`http://example.com/file` against an unreachable origin returns the cached
verdict and sends nothing. -/
theorem checkRangeSupport_cached_witness :
    sampleEnv.Parse "http://example.com/file" = .ok ⟨"http", "example.com", "/file"⟩ ∧
    SyncMap.Load [("example.com", true)] "example.com" = some true ∧
    checkRangeSupport sampleEnv downServer "http://example.com/file"
        { rangeSupportCache := [("example.com", true)], sent := [] }
      = ((true, none), { rangeSupportCache := [("example.com", true)], sent := [] }) :=
  ⟨rfl, by decide,
    checkRangeSupport_cached sampleEnv downServer "http://example.com/file"
      { rangeSupportCache := [("example.com", true)], sent := [] }
      ⟨"http", "example.com", "/file"⟩ true rfl (by decide)⟩

/-- C2: for a URL whose host is not cached, if the HEAD request is answered by
a response whose `Accept-Ranges` value contains `bytes` in any letter case or
whose `Content-Range` is non-empty, `checkRangeSupport` returns `true` with a
nil error, the cache then holds `true` under the URL's host, and the only
request issued is the HEAD request (which is not a GET). -/
theorem checkRangeSupport_head_decisive (env : Env) (srv : Server) (rawurl : String) (w : World)
    (u : URL) (resp : Response) (hp : env.Parse rawurl = .ok u)
    (hm : w.rangeSupportCache.Load u.Host = none)
    (hn : env.newRequestError MethodHead rawurl = none)
    (hs : srv w.sent (probeHeadRequest rawurl) = .ok resp) (ha : advertisesRange resp) :
    (checkRangeSupport env srv rawurl w).1 = (true, none) ∧
    (checkRangeSupport env srv rawurl w).2.rangeSupportCache.Load u.Host = some true ∧
    (checkRangeSupport env srv rawurl w).2.sent = w.sent ++ [probeHeadRequest rawurl] ∧
    (probeHeadRequest rawurl).Method ≠ MethodGet := by
  have hr : headResponse env srv rawurl w = some resp := by simp [headResponse, hn, hs]
  have hb : advertisesRangeB resp = true := (advertisesRangeB_iff resp).mpr ha
  have hw : afterHead env rawurl w = w.record (probeHeadRequest rawurl) := by
    simp [afterHead, hn, World.record]
  have hrun : checkRangeSupport env srv rawurl w
      = ((true, none), (w.record (probeHeadRequest rawurl)).Store u.Host true) := by
    rw [checkRangeSupport_miss env srv rawurl w u hp hm, hr]
    simp only [hb, if_true, hw]
  rw [hrun]
  refine ⟨rfl, SyncMap.Load_Store_self _ _ _, rfl, ?_⟩
  simp [probeHeadRequest, MethodHead, MethodGet]

/-- Witness for C2: a fresh process probing `http://Example.com/a` on an origin
that answers `Accept-Ranges: Bytes`. -/
theorem checkRangeSupport_head_decisive_witness :
    sampleEnv.Parse "http://Example.com/a" = .ok ⟨"http", "Example.com", "/a"⟩ ∧
    World.fresh.rangeSupportCache.Load "Example.com" = none ∧
    advertisesRange ⟨200, [("Accept-Ranges", "Bytes")], -1⟩ ∧
    (checkRangeSupport sampleEnv rangeServer "http://Example.com/a" World.fresh).1 = (true, none) ∧
    (checkRangeSupport sampleEnv rangeServer "http://Example.com/a"
      World.fresh).2.rangeSupportCache.Load "Example.com" = some true ∧
    (checkRangeSupport sampleEnv rangeServer "http://Example.com/a" World.fresh).2.sent
      = [] ++ [probeHeadRequest "http://Example.com/a"] ∧
    (probeHeadRequest "http://Example.com/a").Method ≠ MethodGet :=
  ⟨rfl, by decide, (advertisesRangeB_iff _).mp (by decide),
  checkRangeSupport_head_decisive sampleEnv rangeServer "http://Example.com/a" World.fresh
    ⟨"http", "Example.com", "/a"⟩
    { StatusCode := 200, Header := [("Accept-Ranges", "Bytes")], ContentLength := -1 }
    rfl (by decide) (by decide) rfl
    ((advertisesRangeB_iff _).mp (by decide))⟩


/-- C3: for a URL whose host is not cached and whose HEAD request could not be
built, failed, or was answered without any advertisement of range support, if
the GET request with `Range: bytes=0-0` is answered, then `checkRangeSupport`
returns a nil error, its verdict is `true` exactly when the response has status
206 or an `Accept-Ranges` value containing `bytes` in any letter case or a
non-empty `Content-Range`, and `false` otherwise; the verdict returned is the
one the cache then holds under the URL's host, and the GET request is the last
request on record. -/
theorem checkRangeSupport_get_verdict (env : Env) (srv : Server) (rawurl : String) (w : World)
    (u : URL) (resp : Response) (hp : env.Parse rawurl = .ok u)
    (hm : w.rangeSupportCache.Load u.Host = none)
    (hh : ∀ r, headResponse env srv rawurl w = some r → ¬ advertisesRange r)
    (hg : getOutcome env srv rawurl w = .ok resp) :
    (checkRangeSupport env srv rawurl w).1.2 = none ∧
    ((checkRangeSupport env srv rawurl w).1.1 = true ↔
      (resp.StatusCode = 206 ∨ advertisesRange resp)) ∧
    ((checkRangeSupport env srv rawurl w).1.1 = false ↔
      ¬ (resp.StatusCode = 206 ∨ advertisesRange resp)) ∧
    (checkRangeSupport env srv rawurl w).2.rangeSupportCache.Load u.Host
      = some (checkRangeSupport env srv rawurl w).1.1 ∧
    (checkRangeSupport env srv rawurl w).2.sent
      = (afterHead env rawurl w).sent ++ [probeGetRequest rawurl] := by
  have hn : env.newRequestError MethodGet rawurl = none := by
    cases h : env.newRequestError MethodGet rawurl with
    | none => rfl
    | some e => simp [getOutcome, h] at hg
  have hs : srv (afterHead env rawurl w).sent (probeGetRequest rawurl) = .ok resp := by
    simpa [getOutcome, hn] using hg
  have hstage : checkRangeSupport env srv rawurl w
      = checkRangeSupportGet env srv rawurl u.Host (afterHead env rawurl w) := by
    rw [checkRangeSupport_miss env srv rawurl w u hp hm]
    cases hr : headResponse env srv rawurl w with
    | none => rfl
    | some r =>
      have hna : ¬ advertisesRangeB r = true := fun hb => hh r hr ((advertisesRangeB_iff r).mp hb)
      simp [hna]
  rw [hstage, checkRangeSupportGet_answered env srv rawurl u.Host _ resp hn hs]
  have hiff : (decide (resp.StatusCode = StatusPartialContent) || advertisesRangeB resp) = true ↔
      (resp.StatusCode = 206 ∨ advertisesRange resp) := by
    rw [Bool.or_eq_true, advertisesRangeB_iff, decide_eq_true_iff]
    rfl
  refine ⟨rfl, hiff, ?_, SyncMap.Load_Store_self _ _ _, rfl⟩
  rw [← hiff]
  simp

/-- Witness for C3: a fresh process probing an origin that rejects HEAD with
405 and answers the ranged GET with 206. -/
theorem checkRangeSupport_get_verdict_witness :
    sampleEnv.Parse "http://example.com/a" = .ok ⟨"http", "example.com", "/a"⟩ ∧
    World.fresh.rangeSupportCache.Load "example.com" = none ∧
    headResponse sampleEnv getOnlyServer "http://example.com/a" World.fresh
      = some ⟨405, [], 0⟩ ∧
    getOutcome sampleEnv getOnlyServer "http://example.com/a" World.fresh
      = .ok ⟨206, [("Content-Range", "bytes 0-0/4096")], 1⟩ ∧
    (checkRangeSupport sampleEnv getOnlyServer "http://example.com/a" World.fresh).1.1 = true :=
  ⟨rfl, by decide, by decide, rfl,
    (checkRangeSupport_get_verdict sampleEnv getOnlyServer "http://example.com/a" World.fresh
      ⟨"http", "example.com", "/a"⟩ ⟨206, [("Content-Range", "bytes 0-0/4096")], 1⟩ rfl
      (by decide)
      (fun r hr => by
        have h405 : r = ⟨405, [], 0⟩ := by
          have : some r = some (⟨405, [], 0⟩ : Response) := by rw [← hr]; decide
          exact Option.some.inj this
        rw [h405, ← advertisesRangeB_iff]
        decide)
      rfl).2.1.mpr (Or.inl rfl)⟩

/-- C4 as stated fails: `http://Example.com/a` and `http://example.com/b` have
hosts that differ only in letter case; the first probe caches `true` under
`Example.com`, yet the probe of the second URL does not find it: it sends a
HEAD and a GET to the (now range-less) origin and returns `false`. -/
theorem cache_key_case_sensitive_counterexample :
    ToLower "Example.com" = ToLower "example.com" ∧
    (checkRangeSupport sampleEnv rangeServer "http://Example.com/a" World.fresh).1
      = (true, none) ∧
    (checkRangeSupport sampleEnv rangeServer "http://Example.com/a"
      World.fresh).2.rangeSupportCache = [("Example.com", true)] ∧
    (checkRangeSupport sampleEnv plainServer "http://example.com/b"
      (checkRangeSupport sampleEnv rangeServer "http://Example.com/a" World.fresh).2).1
      = (false, none) ∧
    (checkRangeSupport sampleEnv plainServer "http://example.com/b"
      (checkRangeSupport sampleEnv rangeServer "http://Example.com/a" World.fresh).2).2.sent
      = [probeHeadRequest "http://Example.com/a", probeHeadRequest "http://example.com/b",
         probeGetRequest "http://example.com/b"] ∧
    (checkRangeSupport sampleEnv plainServer "http://example.com/b"
      (checkRangeSupport sampleEnv rangeServer "http://Example.com/a" World.fresh).2).1.1
      ≠ (checkRangeSupport sampleEnv rangeServer "http://Example.com/a" World.fresh).1.1 ∧
    (checkRangeSupport sampleEnv plainServer "http://example.com/b"
      (checkRangeSupport sampleEnv rangeServer "http://Example.com/a" World.fresh).2).2.sent
      ≠ (checkRangeSupport sampleEnv rangeServer "http://Example.com/a" World.fresh).2.sent := by
  decide


/-- C4, amended: the cache is keyed by the host string exactly as `url.Parse`
returns it. For every two URLs whose hosts are the same string, once a probe of
the first has left a verdict in the cache under that host, that verdict is the
one the first probe returned, and a probe of the second returns it with a nil
error and leaves the world, and so the request record, unchanged, whatever the
server would answer. -/
theorem cache_key_exact_host (env : Env) (srv1 srv2 : Server) (url1 url2 : String) (w : World)
    (u1 u2 : URL) (v : Bool) (hp1 : env.Parse url1 = .ok u1) (hp2 : env.Parse url2 = .ok u2)
    (hh : u2.Host = u1.Host)
    (hc : (checkRangeSupport env srv1 url1 w).2.rangeSupportCache.Load u1.Host = some v) :
    (checkRangeSupport env srv1 url1 w).1 = (v, none) ∧
    checkRangeSupport env srv2 url2 (checkRangeSupport env srv1 url1 w).2
      = ((v, none), (checkRangeSupport env srv1 url1 w).2) := by
  constructor
  · rcases checkRangeSupport_outcome env srv1 url1 w with
      ⟨e, hp', _⟩ | ⟨u', v', hp', hc', hr⟩ | ⟨u', e, hp', hm, _, hcache⟩ | ⟨u', b, hp', _, hr, hcache⟩
    · rw [hp1] at hp'; cases hp'
    · rw [hp1] at hp'; cases hp'
      rw [hr] at hc ⊢
      rw [hc'] at hc
      cases hc; rfl
    · rw [hp1] at hp'; cases hp'
      rw [hcache, hm] at hc; cases hc
    · rw [hp1] at hp'; cases hp'
      rw [hcache, SyncMap.Load_Store_self] at hc
      cases hc; exact hr
  · exact checkRangeSupport_hit env srv2 url2 _ u2 v hp2 (by rw [hh]; exact hc)

/-- Witness for C4, amended: after `http://example.com/a` is probed on a
range-capable origin, `http://example.com/b` is answered from the cache even
though the origin has become unreachable. -/
theorem cache_key_exact_host_witness :
    sampleEnv.Parse "http://example.com/a" = .ok ⟨"http", "example.com", "/a"⟩ ∧
    sampleEnv.Parse "http://example.com/b" = .ok ⟨"http", "example.com", "/b"⟩ ∧
    (checkRangeSupport sampleEnv rangeServer "http://example.com/a"
      World.fresh).2.rangeSupportCache.Load "example.com" = some true ∧
    checkRangeSupport sampleEnv downServer "http://example.com/b"
        (checkRangeSupport sampleEnv rangeServer "http://example.com/a" World.fresh).2
      = ((true, none),
        (checkRangeSupport sampleEnv rangeServer "http://example.com/a" World.fresh).2) :=
  ⟨rfl, rfl, by decide,
    (cache_key_exact_host sampleEnv rangeServer downServer "http://example.com/a"
      "http://example.com/b" World.fresh ⟨"http", "example.com", "/a"⟩
      ⟨"http", "example.com", "/b"⟩ true rfl rfl rfl (by decide)).2⟩

/-- A probe that runs alone, with no other call in flight, keeps what is
cached: every host that has a verdict before the call has the same verdict
after it, and a host whose entry differs after the call had none before and is
the host of the probed URL. -/
theorem cache_first_write_wins (env : Env) (srv : Server) (rawurl : String) (w : World) :
    (∀ k v, w.rangeSupportCache.Load k = some v →
      (checkRangeSupport env srv rawurl w).2.rangeSupportCache.Load k = some v) ∧
    (∀ k, (checkRangeSupport env srv rawurl w).2.rangeSupportCache.Load k
        ≠ w.rangeSupportCache.Load k →
      w.rangeSupportCache.Load k = none ∧ ∃ u, env.Parse rawurl = .ok u ∧ u.Host = k) := by
  constructor
  · intro k v hk
    rcases checkRangeSupport_frame env srv rawurl w k with h | ⟨h, _⟩
    · rw [h]; exact hk
    · rw [hk] at h; cases h
  · intro k hk
    rcases checkRangeSupport_frame env srv rawurl w k with h | h
    · exact absurd h hk
    · exact h

/-- A worked run of a probe alone: with `a.example` cached as unsupported,
probing `http://b.example/x` on a range-capable origin keeps the verdict of
`a.example` and adds one for `b.example`. -/
theorem cache_first_write_wins_witness :
    SyncMap.Load [("a.example", false)] "a.example" = some false ∧
    (checkRangeSupport sampleEnv rangeServer "http://b.example/x"
      ⟨[("a.example", false)], []⟩).2.rangeSupportCache.Load "a.example" = some false ∧
    (checkRangeSupport sampleEnv rangeServer "http://b.example/x"
      ⟨[("a.example", false)], []⟩).2.rangeSupportCache.Load "b.example" = some true :=
  ⟨by decide,
    (cache_first_write_wins sampleEnv rangeServer "http://b.example/x"
      ⟨[("a.example", false)], []⟩).1 "a.example" false (by decide),
    by decide⟩

/-- C8 fails when two probes of one host overlap. Two calls are in flight on a
fresh process, for `http://example.com/a` and `http://example.com/b`; the
origin advertises ranges for `/a` only. The first call loads (miss); the second
call then runs from start to finish and stores `false` for `example.com`, the
first write; the first call, still past its `Load`, then finishes and stores
`true`: the verdict the cache held for `example.com` is replaced. -/
theorem overlapping_probes_overwrite :
    (Race.run sampleEnv pathServer
      ⟨.called "http://example.com/a", .called "http://example.com/b", World.fresh⟩
      [.first, .second, .second, .second]).first
      = .probing "http://example.com/a" "example.com" ∧
    (Race.run sampleEnv pathServer
      ⟨.called "http://example.com/a", .called "http://example.com/b", World.fresh⟩
      [.first, .second, .second, .second]).second = .returned false none ∧
    (Race.run sampleEnv pathServer
      ⟨.called "http://example.com/a", .called "http://example.com/b", World.fresh⟩
      [.first, .second, .second, .second]).w.rangeSupportCache.Load "example.com"
      = some false ∧
    (Race.run sampleEnv pathServer
      ⟨.called "http://example.com/a", .called "http://example.com/b", World.fresh⟩
      [.first, .second, .second, .second, .first, .first]).first = .returned true none ∧
    (Race.run sampleEnv pathServer
      ⟨.called "http://example.com/a", .called "http://example.com/b", World.fresh⟩
      [.first, .second, .second, .second, .first, .first]).w.rangeSupportCache.Load
        "example.com"
      = some true := by
  decide

/-- C10: a probe that ends with a verdict obtained from a server response is
idempotent per host. If the probe of a URL met a decisive HEAD response or any
answer to its GET request, a second call of `checkRangeSupport` for any URL
with the same host string, against any server, returns the first call's verdict
with a nil error and leaves the world, and so the request record, unchanged. -/
theorem probe_idempotent_per_host (env : Env) (srv1 srv2 : Server) (url1 url2 : String)
    (w : World) (u1 u2 : URL) (hp1 : env.Parse url1 = .ok u1) (hp2 : env.Parse url2 = .ok u2)
    (hh : u2.Host = u1.Host)
    (hresp : (∃ r, headResponse env srv1 url1 w = some r ∧ advertisesRange r) ∨
      (∃ r, getOutcome env srv1 url1 w = .ok r)) :
    checkRangeSupport env srv2 url2 (checkRangeSupport env srv1 url1 w).2
      = (((checkRangeSupport env srv1 url1 w).1.1, none), (checkRangeSupport env srv1 url1 w).2) := by
  have he := checkRangeSupport_answered env srv1 url1 w u1 hp1 hresp
  have hc := checkRangeSupport_success_cached env srv1 url1 w u1 hp1 he
  exact checkRangeSupport_hit env srv2 url2 _ u2 _ hp2 (by rw [hh]; exact hc)

/-- Witness for C10: `http://example.com/a` is probed on an origin without
range support (the GET is answered 200), then `http://example.com/b` is probed
when the origin has become range-capable: the answer is still `false`. -/
theorem probe_idempotent_per_host_witness :
    sampleEnv.Parse "http://example.com/a" = .ok ⟨"http", "example.com", "/a"⟩ ∧
    sampleEnv.Parse "http://example.com/b" = .ok ⟨"http", "example.com", "/b"⟩ ∧
    getOutcome sampleEnv plainServer "http://example.com/a" World.fresh = .ok ⟨200, [], 10⟩ ∧
    checkRangeSupport sampleEnv rangeServer "http://example.com/b"
        (checkRangeSupport sampleEnv plainServer "http://example.com/a" World.fresh).2
      = (((checkRangeSupport sampleEnv plainServer "http://example.com/a" World.fresh).1.1, none),
        (checkRangeSupport sampleEnv plainServer "http://example.com/a" World.fresh).2) ∧
    (checkRangeSupport sampleEnv plainServer "http://example.com/a" World.fresh).1.1 = false :=
  ⟨rfl, rfl, rfl,
    probe_idempotent_per_host sampleEnv plainServer rangeServer "http://example.com/a"
      "http://example.com/b" World.fresh ⟨"http", "example.com", "/a"⟩
      ⟨"http", "example.com", "/b"⟩ rfl rfl rfl (Or.inr ⟨_, rfl⟩),
    by decide⟩


/-- C9: the six telemetry message types are pairwise distinct variants of one
tagged sum. The six interface values of the test have six different dynamic
type names. For a value of each of the six struct types, sent as an interface
value, the case of its own type matches and yields the struct with every field
unchanged, and none of the other five cases matches; so a case matches exactly
when it is the case of the message's variant, exactly one case matches, the
six-case switch lands in the variant the message came from, and messages of
different variants or with different fields are different interface values.
On any interface value whatever, no two of the six cases match. -/
theorem message_types_tagged_sum :
    ((testMessages.map Iface.dynType).Nodup ∧ (testMessages.map Iface.dynType).length = 6) ∧
    (∀ p : ProgressMsg,
      p.toIface.asProgressMsg = some p ∧ p.toIface.asDownloadCompleteMsg = none ∧
      p.toIface.asDownloadErrorMsg = none ∧ p.toIface.asDownloadStartedMsg = none ∧
      p.toIface.asDownloadPausedMsg = none ∧ p.toIface.asDownloadResumedMsg = none) ∧
    (∀ p : DownloadCompleteMsg,
      p.toIface.asProgressMsg = none ∧ p.toIface.asDownloadCompleteMsg = some p ∧
      p.toIface.asDownloadErrorMsg = none ∧ p.toIface.asDownloadStartedMsg = none ∧
      p.toIface.asDownloadPausedMsg = none ∧ p.toIface.asDownloadResumedMsg = none) ∧
    (∀ p : DownloadErrorMsg,
      p.toIface.asProgressMsg = none ∧ p.toIface.asDownloadCompleteMsg = none ∧
      p.toIface.asDownloadErrorMsg = some p ∧ p.toIface.asDownloadStartedMsg = none ∧
      p.toIface.asDownloadPausedMsg = none ∧ p.toIface.asDownloadResumedMsg = none) ∧
    (∀ p : DownloadStartedMsg,
      p.toIface.asProgressMsg = none ∧ p.toIface.asDownloadCompleteMsg = none ∧
      p.toIface.asDownloadErrorMsg = none ∧ p.toIface.asDownloadStartedMsg = some p ∧
      p.toIface.asDownloadPausedMsg = none ∧ p.toIface.asDownloadResumedMsg = none) ∧
    (∀ p : DownloadPausedMsg,
      p.toIface.asProgressMsg = none ∧ p.toIface.asDownloadCompleteMsg = none ∧
      p.toIface.asDownloadErrorMsg = none ∧ p.toIface.asDownloadStartedMsg = none ∧
      p.toIface.asDownloadPausedMsg = some p ∧ p.toIface.asDownloadResumedMsg = none) ∧
    (∀ p : DownloadResumedMsg,
      p.toIface.asProgressMsg = none ∧ p.toIface.asDownloadCompleteMsg = none ∧
      p.toIface.asDownloadErrorMsg = none ∧ p.toIface.asDownloadStartedMsg = none ∧
      p.toIface.asDownloadPausedMsg = none ∧ p.toIface.asDownloadResumedMsg = some p) ∧
    (∀ (m : Msg) (k : Fin 6), m.toIface.caseMatches k = true ↔ k = m.variant) ∧
    (∀ m : Msg, ∃! k : Fin 6, m.toIface.caseMatches k = true) ∧
    (∀ (i : Iface) (k j : Fin 6), i.caseMatches k = true → i.caseMatches j = true → k = j) ∧
    (∀ m : Msg, typeSwitch m.toIface = some m) ∧
    (∀ m n : Msg, m.toIface = n.toIface → m = n) := by
  have hswitch : ∀ m : Msg, typeSwitch m.toIface = some m := by
    intro m
    cases m <;> rfl
  have hcase : ∀ (m : Msg) (k : Fin 6), m.toIface.caseMatches k = true ↔ k = m.variant := by
    intro m k
    have hb : m.toIface.caseMatches k = decide (k = m.variant) := by
      cases m <;> fin_cases k <;> rfl
    rw [hb, decide_eq_true_iff]
  refine ⟨⟨by decide, rfl⟩, fun p => ⟨rfl, rfl, rfl, rfl, rfl, rfl⟩,
    fun p => ⟨rfl, rfl, rfl, rfl, rfl, rfl⟩, fun p => ⟨rfl, rfl, rfl, rfl, rfl, rfl⟩,
    fun p => ⟨rfl, rfl, rfl, rfl, rfl, rfl⟩, fun p => ⟨rfl, rfl, rfl, rfl, rfl, rfl⟩,
    fun p => ⟨rfl, rfl, rfl, rfl, rfl, rfl⟩, hcase, ?_, caseMatches_exclusive, hswitch, ?_⟩
  · intro m
    exact ⟨m.variant, (hcase m _).mpr rfl, fun k hk => (hcase m k).mp hk⟩
  · intro m n h
    have := hswitch m
    rw [h, hswitch n] at this
    exact (Option.some.inj this).symm

/-- C5 as stated fails: the director has no length gate. On an origin that
advertises `Accept-Ranges` but announces no length at all, and on one that
announces a ten-byte body, the probe's verdict is Supported and `Download`
hands the job to the concurrent strategy, where the rule of the specification
chooses the single-stream strategy. -/
theorem director_length_gate_counterexample :
    ((checkRangeSupport sampleEnv rangeServer "http://example.com/a" World.fresh).1.1 = true ∧
      preflightLength sampleEnv rangeServer "http://example.com/a" World.fresh = none ∧
      (dispatched sampleEnv rangeServer "http://example.com/a" "a.bin" false "" "" 0 7
        World.fresh).strategy = Strategy.concurrent ∧
      specStrategy true none = Strategy.single ∧
      (dispatched sampleEnv rangeServer "http://example.com/a" "a.bin" false "" "" 0 7
        World.fresh).strategy
        ≠ specStrategy
            (checkRangeSupport sampleEnv rangeServer "http://example.com/a" World.fresh).1.1
            (preflightLength sampleEnv rangeServer "http://example.com/a" World.fresh)) ∧
    ((checkRangeSupport sampleEnv tinyRangeServer "http://example.com/a" World.fresh).1.1 = true ∧
      preflightLength sampleEnv tinyRangeServer "http://example.com/a" World.fresh = some 10 ∧
      ¬ (2 * minSegmentBytes ≤ 10) ∧
      (dispatched sampleEnv tinyRangeServer "http://example.com/a" "a.bin" false "" "" 0 7
        World.fresh).strategy = Strategy.concurrent ∧
      specStrategy true (some 10) = Strategy.single ∧
      (dispatched sampleEnv tinyRangeServer "http://example.com/a" "a.bin" false "" "" 0 7
        World.fresh).strategy
        ≠ specStrategy
            (checkRangeSupport sampleEnv tinyRangeServer "http://example.com/a" World.fresh).1.1
            (preflightLength sampleEnv tinyRangeServer "http://example.com/a" World.fresh)) := by
  decide

/-- C5, amended: the director's choice depends on the probe's verdict alone.
`Download` and `TUIDownload` hand the job to the concurrent strategy when
`checkRangeSupport` returns `true` and to the single-stream strategy when it
returns `false`; the content length plays no part. Observed through the
recording strategies, the call made goes to the concurrent strategy if and only
if the verdict is `true`, and to the single-stream strategy if and only if it is
`false`. -/
theorem director_dispatch_by_verdict {CD SD Ctx Chan PS R : Type} (env : Env) (srv : Server)
    (conc : ConcurrentAPI CD Ctx Chan PS R) (single : SingleAPI SD Ctx Chan PS R) (ctx : Ctx)
    (rawurl outPath : String) (verbose : Bool) (md5sum sha256sum : String) (progressCh : Chan)
    (id : Int) (state : Option PS) (ch : Int) (w : World) :
    (Download env srv conc single ctx rawurl outPath verbose md5sum sha256sum progressCh id w).1 =
      (if (checkRangeSupport env srv rawurl w).1.1 = true then
        conc.Download (conc.SetID (conc.SetProgressChan conc.New progressCh) id)
          ctx rawurl outPath verbose md5sum sha256sum
      else
        single.Download (single.SetID (single.SetProgressChan single.New progressCh) id)
          ctx rawurl outPath verbose) ∧
    (TUIDownload env srv conc single ctx rawurl outPath verbose md5sum sha256sum progressCh id
        state w).1 =
      (if (checkRangeSupport env srv rawurl w).1.1 = true then
        conc.Download
          (match state with
            | some st =>
              conc.SetProgressState (conc.SetID (conc.SetProgressChan conc.New progressCh) id) st
            | none => conc.SetID (conc.SetProgressChan conc.New progressCh) id)
          ctx rawurl outPath verbose md5sum sha256sum
      else
        single.Download
          (match state with
            | some st =>
              single.SetProgressState
                (single.SetID (single.SetProgressChan single.New progressCh) id) st
            | none => single.SetID (single.SetProgressChan single.New progressCh) id)
          ctx rawurl outPath verbose) ∧
    ((dispatched env srv rawurl outPath verbose md5sum sha256sum ch id w).strategy
        = Strategy.concurrent ↔ (checkRangeSupport env srv rawurl w).1.1 = true) ∧
    ((dispatched env srv rawurl outPath verbose md5sum sha256sum ch id w).strategy
        = Strategy.single ↔ (checkRangeSupport env srv rawurl w).1.1 = false) := by
  refine ⟨by rw [Download_eq], by rw [TUIDownload_eq], ?_, ?_⟩
  · unfold dispatched
    rw [Download_eq]
    by_cases h : (checkRangeSupport env srv rawurl w).1.1 = true <;>
      simp [h, recordConcurrent, recordSingle, Call.strategy]
  · unfold dispatched
    rw [Download_eq]
    by_cases h : (checkRangeSupport env srv rawurl w).1.1 = true <;>
      simp [h, recordConcurrent, recordSingle, Call.strategy]

/-- C6: failures during probing never reach the caller of `Download`. Whenever
`checkRangeSupport` returns an error, that error comes from one of three
situations (the URL does not parse; or, the host not being cached and the HEAD
stage not decisive, the GET request cannot be built or its transport fails),
the verdict returned with it is `false`, and `Download` and `TUIDownload` return
what the single-stream downloader returns for the same URL, output path and
verbose flag, not the probe's error. -/
theorem probe_failure_falls_back {CD SD Ctx Chan PS R : Type} (env : Env) (srv : Server)
    (conc : ConcurrentAPI CD Ctx Chan PS R) (single : SingleAPI SD Ctx Chan PS R) (ctx : Ctx)
    (rawurl outPath : String) (verbose : Bool) (md5sum sha256sum : String) (progressCh : Chan)
    (id : Int) (state : Option PS) (w : World) (e : GoError)
    (he : (checkRangeSupport env srv rawurl w).1.2 = some e) :
    (env.Parse rawurl = .error e ∨
      ∃ u, env.Parse rawurl = .ok u ∧ w.rangeSupportCache.Load u.Host = none ∧
        (∀ r, headResponse env srv rawurl w = some r → ¬ advertisesRange r) ∧
        getOutcome env srv rawurl w = .error e) ∧
    (checkRangeSupport env srv rawurl w).1.1 = false ∧
    (Download env srv conc single ctx rawurl outPath verbose md5sum sha256sum progressCh id w).1 =
      single.Download (single.SetID (single.SetProgressChan single.New progressCh) id)
        ctx rawurl outPath verbose ∧
    (TUIDownload env srv conc single ctx rawurl outPath verbose md5sum sha256sum progressCh id
        state w).1 =
      single.Download
        (match state with
          | some st =>
            single.SetProgressState
              (single.SetID (single.SetProgressChan single.New progressCh) id) st
          | none => single.SetID (single.SetProgressChan single.New progressCh) id)
        ctx rawurl outPath verbose := by
  have hv := (checkRangeSupport_failure env srv rawurl w e he).1
  refine ⟨(checkRangeSupport_error_iff env srv rawurl w e).mp he, hv, ?_, ?_⟩
  · rw [Download_eq]; simp [hv]
  · rw [TUIDownload_eq]; simp [hv]

/-- Witness for C6, one run per cause. The URL `:bad` does not parse; with a
library that refuses to build requests the GET cannot be built; with an
unreachable origin the GET fails in transport. Each time the probe returns an
error and `Download` makes the single-stream call. -/
theorem probe_failure_falls_back_witness :
    ((checkRangeSupport sampleEnv rangeServer ":bad" World.fresh).1.2
        = some "missing protocol scheme" ∧
      dispatched sampleEnv rangeServer ":bad" "a.bin" true "" "" 3 7 World.fresh
        = Call.single ⟨some 3, some 7, none⟩ () ":bad" "a.bin" true) ∧
    ((checkRangeSupport refusingEnv rangeServer "http://example.com/a" World.fresh).1.2
        = some "net/http: nil Context" ∧
      dispatched refusingEnv rangeServer "http://example.com/a" "a.bin" true "" "" 3 7 World.fresh
        = Call.single ⟨some 3, some 7, none⟩ () "http://example.com/a" "a.bin" true) ∧
    ((checkRangeSupport sampleEnv downServer "http://example.com/a" World.fresh).1.2
        = some "dial tcp: connection refused" ∧
      dispatched sampleEnv downServer "http://example.com/a" "a.bin" true "" "" 3 7 World.fresh
        = Call.single ⟨some 3, some 7, none⟩ () "http://example.com/a" "a.bin" true) :=
  ⟨⟨by decide,
      (probe_failure_falls_back sampleEnv rangeServer (recordConcurrent Unit Int Unit)
        (recordSingle Unit Int Unit) () ":bad" "a.bin" true "" "" 3 7 none
        World.fresh "missing protocol scheme" (by decide)).2.2.1⟩,
    ⟨by decide,
      (probe_failure_falls_back refusingEnv rangeServer (recordConcurrent Unit Int Unit)
        (recordSingle Unit Int Unit) () "http://example.com/a" "a.bin" true "" "" 3 7 none
        World.fresh "net/http: nil Context" (by decide)).2.2.1⟩,
    ⟨by decide,
      (probe_failure_falls_back sampleEnv downServer (recordConcurrent Unit Int Unit)
        (recordSingle Unit Int Unit) () "http://example.com/a" "a.bin" true "" "" 3 7 none
        World.fresh "dial tcp: connection refused" (by decide)).2.2.1⟩⟩

/-- C7 fails on the single-stream path. `Download` is called for
`http://example.com/file` with an expected SHA-256; the origin has no range
support, so the single-stream strategy is chosen, and the call it receives
carries no digest: it is the same call whatever digests were supplied. -/
theorem single_stream_drops_digests :
    (checkRangeSupport sampleEnv plainServer "http://example.com/file" World.fresh).1
      = (false, none) ∧
    (dispatched sampleEnv plainServer "http://example.com/file" "file.bin" false ""
      "e3b0c44298fc1c149afbf4c8996fb92427ae41e4649b934ca495991b7852b855" 0 1
      World.fresh).strategy = Strategy.single ∧
    (dispatched sampleEnv plainServer "http://example.com/file" "file.bin" false ""
      "e3b0c44298fc1c149afbf4c8996fb92427ae41e4649b934ca495991b7852b855" 0 1
      World.fresh).digests = none ∧
    dispatched sampleEnv plainServer "http://example.com/file" "file.bin" false ""
        "e3b0c44298fc1c149afbf4c8996fb92427ae41e4649b934ca495991b7852b855" 0 1 World.fresh
      = dispatched sampleEnv plainServer "http://example.com/file" "file.bin" false ""
        "0000000000000000000000000000000000000000000000000000000000000000" 0 1 World.fresh ∧
    (dispatched sampleEnv rangeServer "http://example.com/file" "file.bin" false ""
      "e3b0c44298fc1c149afbf4c8996fb92427ae41e4649b934ca495991b7852b855" 0 1
      World.fresh).digests
      = some ("", "e3b0c44298fc1c149afbf4c8996fb92427ae41e4649b934ca495991b7852b855") := by
  decide

/-- C11: a failed probe is not cached. Whenever `checkRangeSupport` returns an
error (the URL does not parse, the GET request cannot be built, or the GET
transport fails), the range-support cache after the call equals the cache
before it. For a URL that parses, its host then still has no verdict, and a
later probe of any URL with that host, against any server, is not answered from
the cache: as soon as its HEAD or its GET request can be built it hands a new
request for that URL to the HTTP client. -/
theorem failed_probe_not_cached (env : Env) (srv : Server) (rawurl : String) (w : World)
    (e : GoError) (he : (checkRangeSupport env srv rawurl w).1.2 = some e) :
    (checkRangeSupport env srv rawurl w).2.rangeSupportCache = w.rangeSupportCache ∧
    (∀ u, env.Parse rawurl = .ok u →
      w.rangeSupportCache.Load u.Host = none ∧
      (checkRangeSupport env srv rawurl w).2.rangeSupportCache.Load u.Host = none) ∧
    (∀ (srv2 : Server) (url2 : String) (u u2 : URL), env.Parse rawurl = .ok u →
      env.Parse url2 = .ok u2 → u2.Host = u.Host →
      (env.newRequestError MethodHead url2 = none ∨ env.newRequestError MethodGet url2 = none) →
      ∃ req rest,
        (checkRangeSupport env srv2 url2 (checkRangeSupport env srv rawurl w).2).2.sent
          = (checkRangeSupport env srv rawurl w).2.sent ++ req :: rest ∧
        req.URL = url2) := by
  have hcache := (checkRangeSupport_failure env srv rawurl w e he).2
  have hmiss : ∀ u, env.Parse rawurl = .ok u → w.rangeSupportCache.Load u.Host = none := by
    intro u hp
    rcases (checkRangeSupport_error_iff env srv rawurl w e).mp he with h | ⟨u', hp', hm, _⟩
    · rw [hp] at h; cases h
    · rw [hp] at hp'; cases hp'; exact hm
  refine ⟨hcache, fun u hp => ⟨hmiss u hp, by rw [hcache]; exact hmiss u hp⟩, ?_⟩
  intro srv2 url2 u u2 hp hp2 hh hb
  exact checkRangeSupport_miss_contacts env srv2 url2 _ u2 hp2
    (by rw [hcache, hh]; exact hmiss u hp) hb

/-- Witness for C11: the probe of `http://example.com/a` fails because the
origin is unreachable; nothing is cached, and the next probe of
`http://example.com/b`, the origin being back, sends a HEAD request. -/
theorem failed_probe_not_cached_witness :
    (checkRangeSupport sampleEnv downServer "http://example.com/a" World.fresh).1
      = (false, some "dial tcp: connection refused") ∧
    (checkRangeSupport sampleEnv downServer "http://example.com/a"
      World.fresh).2.rangeSupportCache = World.fresh.rangeSupportCache ∧
    (checkRangeSupport sampleEnv rangeServer "http://example.com/b"
      (checkRangeSupport sampleEnv downServer "http://example.com/a" World.fresh).2).2.sent
      = (checkRangeSupport sampleEnv downServer "http://example.com/a" World.fresh).2.sent
        ++ [probeHeadRequest "http://example.com/b"] :=
  ⟨by decide,
    (failed_probe_not_cached sampleEnv downServer "http://example.com/a" World.fresh
      "dial tcp: connection refused" (by decide)).1,
    by decide⟩

/-- C12: `Download` and `TUIDownload` agree. Called with a nil state,
`TUIDownload` returns what `Download` returns, for every pair of strategies:
the same strategy is called on a downloader wired with the same channel and id,
with the same URL, output path, verbose flag and digests. Called with a state,
it returns what `Download` returns when each strategy attaches that state to
its downloader just before downloading; observed through the recording
strategies, the call is the one `Download` makes except that the downloader
carries the state. -/
theorem TUIDownload_agrees_with_Download {CD SD Ctx Chan PS R : Type} (env : Env)
    (srv : Server) (conc : ConcurrentAPI CD Ctx Chan PS R) (single : SingleAPI SD Ctx Chan PS R)
    (ctx : Ctx) (rawurl outPath : String) (verbose : Bool) (md5sum sha256sum : String)
    (progressCh : Chan) (id : Int) (st : PS) (w : World) :
    TUIDownload env srv conc single ctx rawurl outPath verbose md5sum sha256sum progressCh id
        none w
      = Download env srv conc single ctx rawurl outPath verbose md5sum sha256sum progressCh id w ∧
    TUIDownload env srv conc single ctx rawurl outPath verbose md5sum sha256sum progressCh id
        (some st) w
      = Download env srv (conc.attach st) (single.attach st) ctx rawurl outPath verbose md5sum
          sha256sum progressCh id w ∧
    (TUIDownload env srv (recordConcurrent Ctx Chan PS) (recordSingle Ctx Chan PS) ctx rawurl
        outPath verbose md5sum sha256sum progressCh id none w).1
      = (Download env srv (recordConcurrent Ctx Chan PS) (recordSingle Ctx Chan PS) ctx rawurl
          outPath verbose md5sum sha256sum progressCh id w).1 ∧
    (TUIDownload env srv (recordConcurrent Ctx Chan PS) (recordSingle Ctx Chan PS) ctx rawurl
        outPath verbose md5sum sha256sum progressCh id (some st) w).1
      = (Download env srv (recordConcurrent Ctx Chan PS) (recordSingle Ctx Chan PS) ctx rawurl
          outPath verbose md5sum sha256sum progressCh id w).1.withState st := by
  refine ⟨?_, ?_, ?_, ?_⟩
  · rw [TUIDownload_eq, Download_eq]
  · rw [TUIDownload_eq, Download_eq]
    rfl
  · rw [TUIDownload_eq, Download_eq]
  · rw [TUIDownload_eq, Download_eq]
    by_cases h : (checkRangeSupport env srv rawurl w).1.1 = true <;>
      simp [h, recordConcurrent, recordSingle, Call.withState]

/-- Witness for C12 on a range-capable origin: without a state `TUIDownload`
makes the call `Download` makes; with a state the concurrent call is made on a
downloader that carries channel, id and state. -/
theorem TUIDownload_agrees_with_Download_witness :
    dispatchedTUI sampleEnv rangeServer "http://example.com/a" "a.bin" false "" "" 3 7 none
        World.fresh
      = dispatched sampleEnv rangeServer "http://example.com/a" "a.bin" false "" "" 3 7
        World.fresh ∧
    dispatchedTUI sampleEnv rangeServer "http://example.com/a" "a.bin" false "" "" 3 7 (some ())
        World.fresh
      = Call.concurrent ⟨some 3, some 7, some ()⟩ () "http://example.com/a" "a.bin" false "" "" ∧
    dispatchedTUI sampleEnv plainServer "http://example.com/a" "a.bin" false "" "" 3 7 (some ())
        World.fresh
      = Call.single ⟨some 3, some 7, some ()⟩ () "http://example.com/a" "a.bin" false :=
  ⟨(TUIDownload_agrees_with_Download sampleEnv rangeServer (recordConcurrent Unit Int Unit)
      (recordSingle Unit Int Unit) () "http://example.com/a" "a.bin" false "" "" 3 7 ()
      World.fresh).2.2.1,
    by decide, by decide⟩

end Surge
